import Mathlib

/-!
# ikago, package `internal/pcap`: address model and synthetic-TCP connection

A shallow embedding of `addr.go` and `conn.go`.

* Go strings are lists of characters. Every scan the code performs looks for an
  ASCII character or an ASCII separator, and an ASCII byte never occurs inside
  the encoding of another character, so scanning characters and scanning bytes
  agree.
* Machine integers are natural numbers, reduced modulo `2^16`, `2^32` or `2^64`
  where the Go type wraps.
* A Go call returns a value, returns an error, or panics: `Result`.
* The capture device is outside the program: what a device call returns is an
  input of the operation that makes the call.
-/

namespace Ikago

/-! ## Go values -/

/-- A Go `string`. -/
abbrev GoString := List Char

/-- A Go `[]byte`. -/
abbrev Bytes := List Nat

/-- A Go `error` value: `errors.New` and `fmt.Errorf` without `%w` give `new`,
`fmt.Errorf("pfx: %w", e)` gives `wrap pfx e`, `&timeoutError{Err: "timeout"}`
gives `timeout`, and `&net.OpError{Op: op, Net: "pcap", Err: e}` gives
`opError op e`. -/
inductive GoError where
  | new (msg : String)
  | wrap (pfx : String) (inner : GoError)
  | timeout
  | opError (op : String) (inner : GoError)
deriving DecidableEq, Repr

/-- How a Go call ends: with a value, with a non-nil `error`, or in a run-time
panic. -/
inductive Result (α : Type) where
  | ok (a : α)
  | error (e : GoError)
  | panic (msg : String)
deriving DecidableEq, Repr

/-! ## The parts of the Go standard library that `addr.go` calls

Transcribed from the standard library of the Go release the repository was
written for (Go 1.14): `strings.Index`, `strings.Count`, `strings.Split`,
`strconv.ParseUint`, `net.ParseIP`, `net.IP.To4`, `net.IP.String`. -/

/-- The decimal digit or lower-case hexadecimal digit of a value below 16
(`hexDigit = "0123456789abcdef"`). -/
def digitChar (d : Nat) : Char := Nat.digitChar d

/-- The test `'0' <= c && c <= '9'`. -/
def isDec (c : Char) : Bool := decide (48 ≤ c.toNat ∧ c.toNat ≤ 57)

/-- The test `'a' <= c && c <= 'f'`. -/
def isLowerHex (c : Char) : Bool := decide (97 ≤ c.toNat ∧ c.toNat ≤ 102)

/-- The test `'A' <= c && c <= 'F'`. -/
def isUpperHex (c : Char) : Bool := decide (65 ≤ c.toNat ∧ c.toNat ≤ 70)

/-- The function `strings.Index(s, sep)`: the index of the first instance of `sep` in `s`,
`none` for Go's `-1`. -/
def Index : GoString → GoString → Option Nat
  | [], sep => if sep = [] then some 0 else none
  | c :: t, sep =>
    if sep.isPrefixOf (c :: t) then some 0 else (Index t sep).map (· + 1)

/-- The loop of `strings.Count` for a non-empty `substr`: find the next
instance, count it and continue after it. It runs at most `len(s)` times. -/
def countLoop : Nat → GoString → GoString → Nat
  | 0, _, _ => 0
  | fuel + 1, s, sep =>
    match Index s sep with
    | none => 0
    | some i => 1 + countLoop fuel (s.drop (i + sep.length)) sep

/-- The function `strings.Count(s, substr)`: the number of non-overlapping instances. -/
def Count (s sep : GoString) : Nat :=
  if sep = [] then s.length + 1 else countLoop s.length s sep

/-- The loop `for i < n` of `strings.genSplit`, `n` being the number of
separators still to cut at; the last element is the rest of the string. -/
def splitLoop : Nat → GoString → GoString → List GoString
  | 0, s, _ => [s]
  | n + 1, s, sep =>
    match Index s sep with
    | none => [s]
    | some m => s.take m :: splitLoop n (s.drop (m + sep.length)) sep

/-- The function `strings.Split(s, sep)`, that is `genSplit(s, sep, 0, -1)`: with an empty
separator the string is exploded into its characters, otherwise it is cut at
each of the `Count(s, sep)` instances of the separator. -/
def Split (s sep : GoString) : List GoString :=
  if sep = [] then s.map (fun c => [c]) else splitLoop (Count s sep) s sep

/-- The two failures of `strconv.ParseUint`. -/
inductive NumError where
  | ErrSyntax
  | ErrRange
deriving DecidableEq, Repr

/-- The digit loop of `strconv.ParseUint(s, 10, 16)` over the bytes of `s`, `n`
being the `uint64` accumulated so far: `cutoff = maxUint64/10 + 1` and
`maxVal = 1<<16 - 1`. A letter is a digit of value at least 10, which base 10
refuses like any other non-digit. -/
def parseUintLoop : GoString → Nat → Except NumError Nat
  | [], n => .ok n
  | c :: t, n =>
    if isDec c then
      if n ≥ (2 ^ 64 - 1) / 10 + 1 then .error .ErrRange
      else
        let n10 := (n * 10) % 2 ^ 64
        let n1 := (n10 + (c.toNat - 48)) % 2 ^ 64
        if n1 < n10 ∨ n1 > 2 ^ 16 - 1 then .error .ErrRange
        else parseUintLoop t n1
    else .error .ErrSyntax

/-- The function `strconv.ParseUint(s, 10, 16)`. -/
def ParseUint (s : GoString) : Except NumError Nat :=
  if s.length = 0 then .error .ErrSyntax else parseUintLoop s 0

/-- The constant `big = 0xFFFFFF` of package `net`. -/
def big : Nat := 0xFFFFFF

/-- The loop of `net.dtoi`: `n` is the value so far and `i` the index reached;
the result is `(n, i, ok)`. -/
def dtoiLoop : GoString → Nat → Nat → Nat × Nat × Bool
  | [], n, i => if i = 0 then (0, 0, false) else (n, i, true)
  | c :: t, n, i =>
    if isDec c then
      let n1 := n * 10 + (c.toNat - 48)
      if n1 ≥ big then (big, i, false) else dtoiLoop t n1 (i + 1)
    else if i = 0 then (0, 0, false) else (n, i, true)

/-- The function `net.dtoi(s)`: the decimal number at the start of `s`. -/
def dtoi (s : GoString) : Nat × Nat × Bool := dtoiLoop s 0 0

/-- The loop of `net.xtoi`. -/
def xtoiLoop : GoString → Nat → Nat → Nat × Nat × Bool
  | [], n, i => if i = 0 then (0, i, false) else (n, i, true)
  | c :: t, n, i =>
    if isDec c then
      let n1 := n * 16 + (c.toNat - 48)
      if n1 ≥ big then (0, i, false) else xtoiLoop t n1 (i + 1)
    else if isLowerHex c then
      let n1 := n * 16 + (c.toNat - 97 + 10)
      if n1 ≥ big then (0, i, false) else xtoiLoop t n1 (i + 1)
    else if isUpperHex c then
      let n1 := n * 16 + (c.toNat - 65 + 10)
      if n1 ≥ big then (0, i, false) else xtoiLoop t n1 (i + 1)
    else if i = 0 then (0, i, false) else (n, i, true)

/-- The function `net.xtoi(s)`: the hexadecimal number at the start of `s`. -/
def xtoi (s : GoString) : Nat × Nat × Bool := xtoiLoop s 0 0

/-- A `net.IP`: a byte slice, `[]` for `nil`. -/
abbrev IP := List Nat

/-- The function `net.IPv4(a, b, c, d)`: the 16-byte form, `v4InV6Prefix` followed by the
four bytes. -/
def IPv4 (a b c d : Nat) : IP := [0, 0, 0, 0, 0, 0, 0, 0, 0, 0, 0xff, 0xff, a, b, c, d]

/-- The loop `for i := 0; i < IPv4len; i++` of `net.parseIPv4`; `p` holds the
bytes read so far. The result is the rest of the string and the bytes. -/
def parseIPv4Loop : Nat → Nat → GoString → List Nat → Option (GoString × List Nat)
  | 0, _, s, p => some (s, p)
  | fuel + 1, i, s, p =>
    if s.length = 0 then none
    else
      let afterDot : Option GoString :=
        if i > 0 then (if s.head? ≠ some '.' then none else some (s.drop 1)) else some s
      match afterDot with
      | none => none
      | some s1 =>
        match dtoi s1 with
        | (n, c, ok) =>
          if !ok || n > 0xFF then none
          else parseIPv4Loop fuel (i + 1) (s1.drop c) (p ++ [n % 256])

/-- The function `net.parseIPv4(s)`: a dotted decimal address, `nil` when malformed. -/
def parseIPv4 (s : GoString) : IP :=
  match parseIPv4Loop 4 0 s [] with
  | some ([], [a, b, c, d]) => IPv4 a b c d
  | _ => []

/-- The loop `for i < IPv6len` of `net.parseIPv6`: the state is the rest of the
string, the index `i`, the position of the ellipsis (`-1` for none) and the 16
bytes; `none` is the early `return nil`. Each round advances `i` by two, so
eight rounds are all there can be. -/
def parseIPv6Loop : Nat → GoString → Nat → Int → List Nat →
    Option (GoString × Nat × Int × List Nat)
  | 0, s, i, ellipsis, ip => some (s, i, ellipsis, ip)
  | fuel + 1, s, i, ellipsis, ip =>
    if ¬ i < 16 then some (s, i, ellipsis, ip)
    else
      match xtoi s with
      | (n, c, ok) =>
        if !ok || n > 0xFFFF then none
        else if c < s.length ∧ s.get? c = some '.' then
          if ellipsis < 0 ∧ i ≠ 16 - 4 then none
          else if i + 4 > 16 then none
          else
            match parseIPv4 s with
            | [] => none
            | ip4 =>
              some ([], i + 4, ellipsis,
                (((ip.set i (ip4.getD 12 0)).set (i + 1) (ip4.getD 13 0)).set (i + 2)
                  (ip4.getD 14 0)).set (i + 3) (ip4.getD 15 0))
        else
          let ip1 := (ip.set i ((n / 256) % 256)).set (i + 1) (n % 256)
          let i1 := i + 2
          let s1 := s.drop c
          if s1.length = 0 then some (s1, i1, ellipsis, ip1)
          else if s1.head? ≠ some ':' ∨ s1.length = 1 then none
          else
            let s2 := s1.drop 1
            if s2.head? = some ':' then
              if ellipsis ≥ 0 then none
              else
                let s3 := s2.drop 1
                if s3.length = 0 then some (s3, i1, (i1 : Int), ip1)
                else parseIPv6Loop fuel s3 i1 (i1 : Int) ip1
            else parseIPv6Loop fuel s2 i1 ellipsis ip1

/-- The loop `for j := i - 1; j >= ellipsis; j--` that moves the bytes after
the ellipsis to the end: `k` rounds remain and `j` is the current index. -/
def shiftLoop : Nat → Nat → Nat → List Nat → List Nat
  | 0, _, _, ip => ip
  | k + 1, j, n, ip => shiftLoop k (j - 1) n (ip.set (j + n) (ip.getD j 0))

/-- The loop `for j := ellipsis + n - 1; j >= ellipsis; j--` that clears the
bytes the ellipsis stands for. -/
def zeroLoop : Nat → Nat → List Nat → List Nat
  | 0, _, ip => ip
  | k + 1, j, ip => zeroLoop k (j - 1) (ip.set j 0)

/-- The test `len(s) >= 2 && s[0] == ':' && s[1] == ':'` of `net.parseIPv6`. -/
def hasLeadingEllipsis (s : GoString) : Bool :=
  decide (s.length ≥ 2) && s.get? 0 == some ':' && s.get? 1 == some ':'

/-- The end of `net.parseIPv6`, after the loop stopped with the rest `s` of the
string, the index `i` and the position `ellipsis`: the whole string must have
been used; when fewer than 16 bytes were read the ellipsis is expanded, and it
is an error to have none; when 16 bytes were read it is an error to have one. -/
def parseIPv6End (s : GoString) (i : Nat) (ellipsis : Int) (ip : List Nat) : IP :=
  if s.length ≠ 0 then []
  else if i < 16 then
    if ellipsis < 0 then []
    else
      let n := 16 - i
      let e := ellipsis.toNat
      zeroLoop n (e + n - 1) (shiftLoop (i - e) (i - 1) n ip)
  else if ellipsis ≥ 0 then []
  else ip

/-- The function `net.parseIPv6(s)`: an IPv6 literal, `nil` when malformed. A leading
ellipsis is taken off first, and may be the whole string. -/
def parseIPv6 (s : GoString) : IP :=
  let ip0 : List Nat := List.replicate 16 0
  let lead := hasLeadingEllipsis s
  let s0 := if lead then s.drop 2 else s
  let ellipsis0 : Int := if lead then 0 else -1
  if lead && s0.length = 0 then ip0
  else
    match parseIPv6Loop 8 s0 0 ellipsis0 ip0 with
    | none => []
    | some (s1, i, ellipsis, ip) => parseIPv6End s1 i ellipsis ip

/-- The scan of `net.ParseIP`: the first `.` or `:` decides the family. -/
def parseIPScan : GoString → GoString → IP
  | [], _ => []
  | c :: t, s =>
    if c = '.' then parseIPv4 s else if c = ':' then parseIPv6 s else parseIPScan t s

/-- The function `net.ParseIP(s)`: the 16-byte address, `nil` when `s` is not a literal. -/
def ParseIP (s : GoString) : IP := parseIPScan s s

/-- The method `ip.To4()`: the 4-byte form of an IPv4 address, `nil` otherwise. -/
def To4 (ip : IP) : IP :=
  if ip.length = 4 then ip
  else if ip.length = 16 ∧ (ip.take 10).all (· == 0) ∧ ip.getD 10 0 = 0xff ∧ ip.getD 11 0 = 0xff
  then ip.drop 12
  else []

/-- The function `net.ubtoa`: a byte in decimal. -/
def ubtoa (v : Nat) : GoString :=
  if v < 10 then [digitChar v]
  else if v < 100 then [digitChar (v / 10), digitChar (v % 10)]
  else [digitChar (v / 100), digitChar ((v / 10) % 10), digitChar (v % 10)]

/-- The loop `for j := 7; j >= 0; j--` of `net.appendHex` over the nibbles of a
`uint32`, the most significant first; leading zero nibbles are dropped. -/
def appendHexLoop : Nat → Nat → GoString
  | 0, _ => []
  | j + 1, i =>
    let v := i / 2 ^ (j * 4)
    (if v > 0 then [digitChar (v % 16)] else []) ++ appendHexLoop j i

/-- The function `net.appendHex`: the hexadecimal form of a 16-bit group. -/
def appendHex (i : Nat) : GoString :=
  if i = 0 then ['0'] else appendHexLoop 8 i

/-- The function `net.hexString`: two lower-case digits per byte. -/
def hexString (b : List Nat) : GoString :=
  b.flatMap (fun v => [digitChar ((v / 16) % 16), digitChar (v % 16)])

/-- The inner loop `for j < IPv6len && p[j] == 0 && p[j+1] == 0` of
`IP.String`: the end of the run of zero groups that starts at `j`. -/
def zeroRunEnd : Nat → Nat → List Nat → Nat
  | 0, j, _ => j
  | fuel + 1, j, p =>
    if j < 16 ∧ p.getD j 0 = 0 ∧ p.getD (j + 1) 0 = 0 then zeroRunEnd fuel (j + 2) p else j

/-- The outer loop of `IP.String` that finds the longest run of zero groups:
the state is the index `i` and the best run `[e0, e1)` so far. -/
def findRunLoop : Nat → Nat → Int → Int → List Nat → Int × Int
  | 0, _, e0, e1, _ => (e0, e1)
  | fuel + 1, i, e0, e1, p =>
    if ¬ i < 16 then (e0, e1)
    else
      let j := zeroRunEnd 8 i p
      if j > i ∧ (j : Int) - i > e1 - e0 then findRunLoop fuel (j + 2) i j p
      else findRunLoop fuel (i + 2) e0 e1 p

/-- The printing loop of `IP.String`: hexadecimal groups separated by colons,
with `::` in place of the run `[e0, e1)`. -/
def printLoop : Nat → Nat → Int → Int → List Nat → GoString
  | 0, _, _, _, _ => []
  | fuel + 1, i, e0, e1, p =>
    if ¬ i < 16 then []
    else if (i : Int) = e0 then
      let i1 := e1.toNat
      if i1 ≥ 16 then [':', ':']
      else [':', ':'] ++ appendHex (p.getD i1 0 * 256 + p.getD (i1 + 1) 0)
        ++ printLoop fuel (i1 + 2) e0 e1 p
    else
      (if i > 0 then [':'] else []) ++ appendHex (p.getD i 0 * 256 + p.getD (i + 1) 0)
        ++ printLoop fuel (i + 2) e0 e1 p

/-- The dotted decimal form of four bytes. -/
def dotted (a b c d : Nat) : GoString :=
  ubtoa a ++ ['.'] ++ ubtoa b ++ ['.'] ++ ubtoa c ++ ['.'] ++ ubtoa d

/-- The method `ip.String()`: dotted decimal for an IPv4 address, colon-separated
hexadecimal groups with the longest run of at least two zero groups shortened
to `::` for a 16-byte address. -/
def IP.String (ip : IP) : GoString :=
  if ip.length = 0 then "<nil>".toList
  else
    match To4 ip with
    | [a, b, c, d] => dotted a b c d
    | _ =>
      if ip.length ≠ 16 then '?' :: hexString ip
      else
        match findRunLoop 8 0 (-1) (-1) ip with
        | (e0, e1) =>
          if e1 - e0 ≤ 2 then printLoop 8 0 (-1) (-1) ip else printLoop 8 0 e0 e1 ip

/-- The loop `for u >= 10` of the decimal formatter behind `%d` and
`strconv.Itoa`: digits are produced from the least significant one. -/
def fmtDecLoop : Nat → Nat → GoString → GoString
  | 0, u, acc => digitChar (u % 10) :: acc
  | fuel + 1, u, acc =>
    if u ≥ 10 then fmtDecLoop fuel (u / 10) (digitChar (u % 10) :: acc)
    else digitChar u :: acc

/-- The verb `%d` applied to an unsigned value. -/
def fmtUint (u : Nat) : GoString := fmtDecLoop u u []

/-- The verb `%d`, or `strconv.Itoa`, applied to a signed value. -/
def fmtInt (v : Int) : GoString :=
  if v < 0 then '-' :: fmtUint v.natAbs else fmtUint v.natAbs

/-! ## `addr.go` -/

/-- The type `IPPort`: a network endpoint with an IP and a 16-bit port. -/
structure IPPort where
  IP : IP
  Port : Nat
deriving DecidableEq, Repr

/-- The function `formatIP`: an IPv4 address bare, any other address in brackets. -/
def formatIP (ip : IP) : GoString :=
  if To4 ip ≠ [] then IP.String ip else ['['] ++ IP.String ip ++ [']']

/-- The method `IPPort.String`: `fmt.Sprintf("%s:%d", formatIP(i.IP), i.Port)`. -/
def IPPort.String (i : IPPort) : GoString := formatIP i.IP ++ [':'] ++ fmtUint i.Port

/-- The error `fmt.Errorf("parse ip port: %w", fmt.Errorf(msg + " %s", arg))`. -/
def parseIPPortError (msg : String) (arg : GoString) : GoError :=
  .wrap "parse ip port" (.new (msg ++ " " ++ String.mk arg))

/-- The function `ParseIPPort`: reads `s[0]` first, which panics on the empty string; a
string that starts with `[` is cut at `]:`, any other string at `:`. -/
def ParseIPPort (s : GoString) : Result IPPort :=
  match s with
  | [] => .panic "runtime error: index out of range [0] with length 0"
  | c :: rest =>
    if c = '[' then
      match Split rest [']', ':'] with
      | [h, q] =>
        if ParseIP h = [] then .error (parseIPPortError "invalid ipv6 ip" h)
        else
          match ParseUint q with
          | .error _ => .error (parseIPPortError "invalid port" q)
          | .ok port => .ok { IP := ParseIP h, Port := port % 2 ^ 16 }
      | _ => .error (parseIPPortError "invalid ipv6 address" s)
    else
      match Split s [':'] with
      | [h, q] =>
        if ParseIP h = [] then .error (parseIPPortError "invalid ipv4 ip" h)
        else
          match ParseUint q with
          | .error _ => .error (parseIPPortError "invalid port" q)
          | .ok port => .ok { IP := ParseIP h, Port := port % 2 ^ 16 }
      | _ => .error (parseIPPortError "invalid ipv4 address" s)

/-! ## Addresses of package `net` -/

/-- The type `net.TCPAddr`. -/
structure TCPAddr where
  IP : IP
  Port : Int
  Zone : GoString
deriving DecidableEq, Repr

/-- The type `net.UDPAddr`. -/
structure UDPAddr where
  IP : IP
  Port : Int
  Zone : GoString
deriving DecidableEq, Repr

/-- A `net.Addr`: a `*net.TCPAddr`, a `*net.UDPAddr`, or a value of any other
type that implements the interface, of which only its string is kept. -/
inductive Addr where
  | tcp (a : TCPAddr)
  | udp (a : UDPAddr)
  | other (str : GoString)
deriving DecidableEq, Repr

/-- The function `net.JoinHostPort`: the host goes in brackets when it contains a colon. -/
def JoinHostPort (host port : GoString) : GoString :=
  if host.contains ':' then ['['] ++ host ++ [']', ':'] ++ port else host ++ [':'] ++ port

/-- The function `net.ipEmptyString`: like `ip.String()`, but empty for an empty address. -/
def ipEmptyString (ip : IP) : GoString :=
  if ip.length = 0 then [] else IP.String ip

/-- The common body of `(*TCPAddr).String` and `(*UDPAddr).String`. -/
def hostPortString (ip : IP) (port : Int) (zone : GoString) : GoString :=
  if zone ≠ [] then JoinHostPort (ipEmptyString ip ++ ['%'] ++ zone) (fmtInt port)
  else JoinHostPort (ipEmptyString ip) (fmtInt port)

/-- The method `(*net.TCPAddr).String`. -/
def TCPAddr.String (a : TCPAddr) : GoString := hostPortString a.IP a.Port a.Zone

/-- The method `(*net.UDPAddr).String`. -/
def UDPAddr.String (a : UDPAddr) : GoString := hostPortString a.IP a.Port a.Zone

/-- The method `String` of a `net.Addr`. -/
def Addr.String : Addr → GoString
  | .tcp a => a.String
  | .udp a => a.String
  | .other str => str

/-! ## Layers, packets and the capture device

The layer builder, the packet parser and the raw connection are files of the
package that sit beside `conn.go`; they are modelled from their description. -/

/-- A `net.HardwareAddr`. -/
abbrev HardwareAddr := List Nat

/-- The fields of `layers.TCP` the package reads or writes. -/
structure TCP where
  SrcPort : Nat
  DstPort : Nat
  Seq : Nat
  Ack : Nat
  SYN : Bool
  PSH : Bool
  ACK : Bool
  RST : Bool
  FIN : Bool
deriving DecidableEq, Repr

/-- The ports of `layers.UDP`. -/
structure UDP where
  SrcPort : Nat
  DstPort : Nat
deriving DecidableEq, Repr

/-- A `gopacket.LayerType`, as far as the package tells them apart. -/
inductive LayerType where
  | IPv4
  | IPv6
  | TCP
  | UDP
  | other (name : String)
deriving DecidableEq, Repr

/-- The name `%s` prints for a layer type. -/
def LayerType.name : LayerType → String
  | .IPv4 => "IPv4"
  | .IPv6 => "IPv6"
  | .TCP => "TCP"
  | .UDP => "UDP"
  | .other n => n

/-- The transport layer of a packet. -/
inductive TransportLayer where
  | tcp (t : TCP)
  | udp (u : UDP)
  | other (name : String)
deriving DecidableEq, Repr

/-- The method `LayerType` of a transport layer. -/
def TransportLayer.LayerType : TransportLayer → LayerType
  | .tcp _ => .TCP
  | .udp _ => .UDP
  | .other n => .other n

/-- The network layer of a packet: `layers.IPv4` with its identification and
TTL, or `layers.IPv6` with its hop limit. -/
inductive NetworkLayer where
  | ipv4 (SrcIP DstIP : IP) (Id TTL : Nat)
  | ipv6 (SrcIP DstIP : IP) (HopLimit : Nat)
deriving DecidableEq, Repr

/-- The method `LayerType` of a network layer. -/
def NetworkLayer.LayerType : NetworkLayer → LayerType
  | .ipv4 _ _ _ _ => .IPv4
  | .ipv6 _ _ _ => .IPv6

/-- The source address of a network layer. -/
def NetworkLayer.SrcIP : NetworkLayer → IP
  | .ipv4 s _ _ _ => s
  | .ipv6 s _ _ => s

/-- The destination address of a network layer. -/
def NetworkLayer.DstIP : NetworkLayer → IP
  | .ipv4 _ d _ _ => d
  | .ipv6 _ d _ => d

/-- The link layer, `layers.Ethernet`. -/
structure Ethernet where
  SrcMAC : HardwareAddr
  DstMAC : HardwareAddr
deriving DecidableEq, Repr

/-- A captured `gopacket.Packet`, decoded: each layer is present or missing,
`application` is `ApplicationLayer().LayerContents()`, and `errorLayer` tells
that decoding failed. -/
structure Packet where
  link : Option Ethernet
  network : Option NetworkLayer
  transport : Option TransportLayer
  application : Option Bytes
  errorLayer : Bool
deriving DecidableEq, Repr

/-- Modelled from the spec: the capture device's metadata queries `alias`,
`local_hw_addr`, `ipv4_addr` and `ipv6_addr` (type `Device`, not in the source
given). An address family the device lacks is `none`. -/
structure Device where
  aliasName : String
  hardwareAddr : HardwareAddr
  ipv4Addr : Option IP
  ipv6Addr : Option IP
deriving DecidableEq, Repr

/-- Modelled from the spec: the capture handle (type `RawConn`, not in the
source given), as far as the layer builder reads it: the local device and the
remote device. What its `ReadPacket`, `Write` and `Close` return is an input of
each operation. -/
structure RawConn where
  srcDev : Device
  dstDev : Device
deriving DecidableEq, Repr

/-- The triple `CreateLayers` returns. -/
structure Layers where
  transport : TCP
  network : NetworkLayer
  link : Ethernet
deriving DecidableEq, Repr

/-- Modelled from the spec: `CreateLayers` (layer builder, not in the source
given) "selects IPv4 or IPv6 network layer based on `dst_ip`; fills Ethernet
source from the device's hardware address, destination from `dst_hw`; sets IP
TTL/hop-limit to `ttl`; sets IPv4 identification to `id` (ignored for IPv6);
fills TCP source/dest ports, seq, ack, with no flags set initially", and "fails
only when the device context lacks an address in the required family". -/
def CreateLayers (srcPort dstPort seq ack : Nat) (conn : RawConn) (dstIP : IP)
    (id ttl : Nat) (dstHardwareAddr : HardwareAddr) : Result Layers :=
  let tcp : TCP :=
    { SrcPort := srcPort, DstPort := dstPort, Seq := seq, Ack := ack,
      SYN := false, PSH := false, ACK := false, RST := false, FIN := false }
  let eth : Ethernet := { SrcMAC := conn.srcDev.hardwareAddr, DstMAC := dstHardwareAddr }
  if To4 dstIP ≠ [] then
    match conn.srcDev.ipv4Addr with
    | none => .error (.new "missing ipv4 address")
    | some src => .ok { transport := tcp, network := .ipv4 src dstIP id ttl, link := eth }
  else
    match conn.srcDev.ipv6Addr with
    | none => .error (.new "missing ipv6 address")
    | some src => .ok { transport := tcp, network := .ipv6 src dstIP ttl, link := eth }

/-- Modelled from the spec: `FlagTCPLayer(tcp, syn, psh, ack)` (layer builder,
not in the source given) "sets or clears the named flags; unmentioned flags are
cleared". -/
def FlagTCPLayer (tcp : TCP) (syn psh ack : Bool) : TCP :=
  { tcp with SYN := syn, PSH := psh, ACK := ack, RST := false, FIN := false }

/-- What is injected: the wire buffer `Serialize` produces, kept as the layers
and the payload it carries. -/
structure Frame where
  link : Ethernet
  network : NetworkLayer
  transport : TCP
  payload : Bytes
deriving DecidableEq, Repr

/-- Modelled from the spec: `Serialize(link, network, transport[, payload])`
(layer builder, not in the source given) "produces the wire buffer with
computed IP and TCP checksums. Payload, when present, is carried verbatim as
the TCP segment body." No failure is described for it. -/
def Serialize (link : Ethernet) (network : NetworkLayer) (transport : TCP)
    (payload : Bytes) : Result Frame :=
  .ok { link := link, network := network, transport := transport, payload := payload }

/-- Modelled from the spec: the indicator (type `PacketIndicator`, not in the
source given), "a parsed view of one captured frame": addresses, source
hardware address, the transport layer with its ports, flags, seq and ack, and
the application payload. -/
structure PacketIndicator where
  srcIP : IP
  dstIP : IP
  srcHardwareAddr : HardwareAddr
  transportLayer : TransportLayer
  payload : Bytes
deriving DecidableEq, Repr

/-- The method `TransportLayerType` of the indicator. -/
def PacketIndicator.TransportLayerType (ind : PacketIndicator) : LayerType :=
  ind.transportLayer.LayerType

/-- The method `TCPLayer` of the indicator: the TCP layer, `none` for the nil
pointer of a frame that is not TCP. -/
def PacketIndicator.TCPLayer (ind : PacketIndicator) : Option TCP :=
  match ind.transportLayer with
  | .tcp t => some t
  | _ => none

/-- The method `SrcIP` of the indicator. -/
def PacketIndicator.SrcIP (ind : PacketIndicator) : IP := ind.srcIP

/-- The method `SrcHardwareAddr` of the indicator. -/
def PacketIndicator.SrcHardwareAddr (ind : PacketIndicator) : HardwareAddr :=
  ind.srcHardwareAddr

/-- The method `SrcPort` of the indicator. -/
def PacketIndicator.SrcPort (ind : PacketIndicator) : Nat :=
  match ind.transportLayer with
  | .tcp t => t.SrcPort
  | .udp u => u.SrcPort
  | .other _ => 0

/-- The method `DstPort` of the indicator. -/
def PacketIndicator.DstPort (ind : PacketIndicator) : Nat :=
  match ind.transportLayer with
  | .tcp t => t.DstPort
  | .udp u => u.DstPort
  | .other _ => 0

/-- The method `Src` of the indicator: a TCP address for a TCP frame, a UDP
address for a UDP frame. -/
def PacketIndicator.Src (ind : PacketIndicator) : Addr :=
  match ind.transportLayer with
  | .udp _ => .udp { IP := ind.srcIP, Port := (ind.SrcPort : Int), Zone := [] }
  | _ => .tcp { IP := ind.srcIP, Port := (ind.SrcPort : Int), Zone := [] }

/-- Modelled from the spec: `ParsePacket` (packet parser, not in the source
given) "performs layered decode. Fails *malformed* on decode error or
*unsupported* when the transport layer is neither TCP nor UDP. An empty TCP
segment is legal and yields an indicator with a zero-length payload." A frame
without a link or network layer does not decode. -/
def ParsePacket (p : Packet) : Result PacketIndicator :=
  if p.errorLayer then .error (.new "malformed packet")
  else
    match p.link, p.network with
    | some eth, some net =>
      match p.transport with
      | some (.tcp t) =>
        .ok { srcIP := net.SrcIP, dstIP := net.DstIP, srcHardwareAddr := eth.SrcMAC,
              transportLayer := .tcp t, payload := p.application.getD [] }
      | some (.udp u) =>
        .ok { srcIP := net.SrcIP, dstIP := net.DstIP, srcHardwareAddr := eth.SrcMAC,
              transportLayer := .udp u, payload := p.application.getD [] }
      | _ => .error (.new "unsupported transport layer")
    | _, _ => .error (.new "malformed packet")

/-- The cipher collaborator `crypto.Crypt`: `Encrypt` and `Decrypt`, each
returning bytes or an error. -/
structure Crypt where
  Encrypt : Bytes → Except GoError Bytes
  Decrypt : Bytes → Except GoError Bytes

/-! ## `conn.go` -/

/-- A `time.Time`: nanoseconds since the zero instant, so that `IsZero` is
`= 0`. -/
abbrev Time := Int

/-- The method `t.Sub(u)`: the duration `t - u`, saturated to the range of a `Duration`
(an `int64` of nanoseconds). -/
def Time.Sub (t u : Time) : Int :=
  if t - u > 2 ^ 63 - 1 then 2 ^ 63 - 1 else if t - u < -(2 ^ 63) then -(2 ^ 63) else t - u

/-- The type `clientIndicator`: the state kept for one peer. `crypt` is an interface
value, `none` when nil. -/
structure clientIndicator where
  crypt : Option Crypt
  seq : Nat
  ack : Nat

/-- The type `Conn`. The map `clients` holds one record per key: every entry is made by
`&clientIndicator{...}` at the moment it is stored, so no two keys share a
record and an assignment through the pointer changes the entry of one key. -/
structure Conn where
  conn : Option RawConn
  srcPort : Nat
  dstAddr : Option TCPAddr
  crypt : Option Crypt
  isClosed : Bool
  clients : GoString → Option clientIndicator
  id : Nat
  readDeadline : Time
  writeDeadline : Time

/-- The function `New`: a connection with an empty peer table and every other field zero. -/
def New : Conn :=
  { conn := none, srcPort := 0, dstAddr := none, crypt := none, isClosed := false,
    clients := fun _ => none, id := 0, readDeadline := 0, writeDeadline := 0 }

/-- The assignment `c.clients[key] = client`, and likewise an assignment to a
field of the record stored under `key`. -/
def Conn.setClient (c : Conn) (key : GoString) (client : clientIndicator) : Conn :=
  { c with clients := fun k => if k = key then some client else c.clients k }

/-- The statement `c.id++` on a `uint16`. -/
def Conn.incId (c : Conn) : Conn := { c with id := (c.id + 1) % 2 ^ 16 }

/-- What a call leaves behind: its result, the connection afterwards and the
frames it injected, in order. -/
structure Outcome (α : Type) where
  result : Result α
  conn : Conn
  wire : List Frame

/-- The panic of a nil pointer dereference. -/
def nilDeref : String := "runtime error: invalid memory address or nil pointer dereference"

/-- The conversion `uint16(port)` of an `int`. -/
def toUint16 (v : Int) : Nat := (v % 2 ^ 16).toNat

/-- The method `c.RemoteAddr().String()`: `(*TCPAddr).String` answers `<nil>` for a nil
pointer. -/
def Conn.RemoteAddrString (c : Conn) : GoString :=
  match c.dstAddr with
  | none => "<nil>".toList
  | some a => a.String

/-- The tail of `corLocalAddr`: the local address of the family of `ip`. -/
def Conn.corLocalAddrOf (c : Conn) (ip : IP) : Result (List TCPAddr) :=
  match c.conn with
  | none => .panic nilDeref
  | some rc =>
    if To4 ip ≠ [] then
      match rc.srcDev.ipv4Addr with
      | none => .panic nilDeref
      | some l => .ok [{ IP := l, Port := (c.srcPort : Int), Zone := [] }]
    else
      match rc.srcDev.ipv6Addr with
      | none => .panic nilDeref
      | some l => .ok [{ IP := l, Port := (c.srcPort : Int), Zone := [] }]

/-- The function `corLocalAddr`: the local address that corresponds to a destination, every
local address for a nil destination. It panics on an address that is neither
TCP nor UDP. -/
def Conn.corLocalAddr (c : Conn) (dstAddr : Option Addr) : Result (List TCPAddr) :=
  match dstAddr with
  | none =>
    match c.conn with
    | none => .panic nilDeref
    | some rc =>
      .ok ((rc.srcDev.ipv4Addr.toList ++ rc.srcDev.ipv6Addr.toList).map
        (fun ip => { IP := ip, Port := (c.srcPort : Int), Zone := [] }))
  | some (.tcp a) => c.corLocalAddrOf a.IP
  | some (.udp a) => c.corLocalAddrOf a.IP
  | some (.other _) => .panic "type not support"

/-- The return of `&net.OpError{Op: op, Net: "pcap", Source: c.corLocalAddr(a),
Addr: a, Err: e}`: building the value evaluates `corLocalAddr`, which may
panic. -/
def Conn.opError {α : Type} (c : Conn) (op : String) (a : Option Addr) (e : GoError) :
    Result α :=
  match c.corLocalAddr a with
  | .panic m => .panic m
  | _ => .error (.opError op e)

/-- The function `handshakeSYN`: emits the SYN through the handle `conn`, then stores the
peer with `seq = 1`; `wr` is what `conn.Write` returns. -/
def Conn.handshakeSYN (c : Conn) (conn : RawConn) (wr : Except GoError Nat) : Outcome Unit :=
  let client : clientIndicator := { crypt := c.crypt, seq := 0, ack := 0 }
  match c.dstAddr with
  | none => ⟨.panic nilDeref, c, []⟩
  | some dstAddr =>
    match CreateLayers c.srcPort (toUint16 dstAddr.Port) client.seq 0 conn dstAddr.IP c.id 128
        conn.dstDev.hardwareAddr with
    | .panic m => ⟨.panic m, c, []⟩
    | .error e => ⟨.error e, c, []⟩
    | .ok ls =>
      match Serialize ls.link ls.network (FlagTCPLayer ls.transport true false false) [] with
      | .panic m => ⟨.panic m, c, []⟩
      | .error e => ⟨.error (.wrap "serialize" e), c, []⟩
      | .ok data =>
        match wr with
        | .error e => ⟨.error (.wrap "write" e), c, []⟩
        | .ok _ =>
          let c1 := c.setClient c.RemoteAddrString { client with seq := (client.seq + 1) % 2 ^ 32 }
          ⟨.ok (), if ls.network.LayerType = .IPv4 then c1.incId else c1, [data]⟩

/-- The function `handshakeSYNACK`: answers a SYN with a SYN/ACK through `c.conn`, then
stores the peer under the source address of the SYN. -/
def Conn.handshakeSYNACK (c : Conn) (indicator : PacketIndicator) (wr : Except GoError Nat) :
    Outcome Unit :=
  if indicator.TransportLayerType ≠ .TCP then
    ⟨.error (.new ("transport layer type " ++ indicator.TransportLayerType.name ++
      " not support")), c, []⟩
  else
    match indicator.TCPLayer with
    | none => ⟨.panic nilDeref, c, []⟩
    | some tcp =>
      let client : clientIndicator := { crypt := c.crypt, seq := 0, ack := (tcp.Seq + 1) % 2 ^ 32 }
      match c.conn with
      | none => ⟨.panic nilDeref, c, []⟩
      | some rc =>
        match CreateLayers indicator.DstPort indicator.SrcPort client.seq client.ack rc
            indicator.SrcIP c.id 64 indicator.SrcHardwareAddr with
        | .panic m => ⟨.panic m, c, []⟩
        | .error e => ⟨.error (.wrap "create layers" e), c, []⟩
        | .ok ls =>
          match Serialize ls.link ls.network (FlagTCPLayer ls.transport true false true) [] with
          | .panic m => ⟨.panic m, c, []⟩
          | .error e => ⟨.error (.wrap "serialize" e), c, []⟩
          | .ok data =>
            match wr with
            | .error e => ⟨.error (.wrap "write" e), c, []⟩
            | .ok _ =>
              let c1 := c.setClient indicator.Src.String
                { client with seq := (client.seq + 1) % 2 ^ 32 }
              ⟨.ok (), if ls.network.LayerType = .IPv4 then c1.incId else c1, [data]⟩

/-- The function `handshakeACK`: records `ack = their seq + 1` in the peer of the reply's
source, then emits the ACK through the handle `conn`. The peer is looked up
without the `ok` test, so an unknown source is a nil pointer. -/
def Conn.handshakeACK (c : Conn) (packet : Packet) (conn : RawConn) (wr : Except GoError Nat) :
    Outcome Unit :=
  match ParsePacket packet with
  | .panic m => ⟨.panic m, c, []⟩
  | .error e => ⟨.error (.wrap "parse packet" e), c, []⟩
  | .ok indicator =>
    if indicator.TransportLayerType ≠ .TCP then
      ⟨.error (.new ("transport layer type " ++ indicator.TransportLayerType.name ++
        " not support")), c, []⟩
    else
      match c.clients indicator.Src.String, indicator.TCPLayer with
      | some client0, some tcp =>
        let client : clientIndicator := { client0 with ack := (tcp.Seq + 1) % 2 ^ 32 }
        let c1 := c.setClient indicator.Src.String client
        match CreateLayers indicator.DstPort indicator.SrcPort client.seq client.ack conn
            indicator.SrcIP c.id 128 indicator.SrcHardwareAddr with
        | .panic m => ⟨.panic m, c1, []⟩
        | .error e => ⟨.error (.wrap "create layers" e), c1, []⟩
        | .ok ls =>
          match Serialize ls.link ls.network (FlagTCPLayer ls.transport false false true) [] with
          | .panic m => ⟨.panic m, c1, []⟩
          | .error e => ⟨.error (.wrap "serialize" e), c1, []⟩
          | .ok data =>
            match wr with
            | .error e => ⟨.error (.wrap "write" e), c1, []⟩
            | .ok _ => ⟨.ok (), if ls.network.LayerType = .IPv4 then c1.incId else c1, [data]⟩
      | _, _ => ⟨.panic nilDeref, c, []⟩

/-- What the receive `t := <-ct` of `handshake` gets: the packet the reader
task read, the error of its read, or the message of the 3-second timer. -/
inductive Reply where
  | packet (p : Packet)
  | readError (e : GoError)
  | timer
deriving DecidableEq, Repr

/-- The function `handshake`: opens the handshake handle (`created` is the error of
`CreateRawConn`, if any), sends the SYN, waits for the reply racing a timer of
3 seconds, checks the reply and sends the ACK. `srcPort` and `dstAddr` only go
into the capture filter and the log. -/
def Conn.handshake (c : Conn) (srcDev dstDev : Device) (created : Option GoError)
    (wrSyn : Except GoError Nat) (reply : Reply) (wrAck : Except GoError Nat) : Outcome Unit :=
  match created with
  | some e => ⟨.error (.wrap "create raw connection" e), c, []⟩
  | none =>
    let handshakeConn : RawConn := { srcDev := srcDev, dstDev := dstDev }
    let syn := c.handshakeSYN handshakeConn wrSyn
    match syn.result with
    | .panic m => ⟨.panic m, syn.conn, syn.wire⟩
    | .error e => ⟨.error (.wrap "synchronize" e), syn.conn, syn.wire⟩
    | .ok _ =>
      match reply with
      | .timer => ⟨.error (.new "timeout"), syn.conn, syn.wire⟩
      | .readError e =>
        ⟨.error (.wrap ("read device " ++ handshakeConn.srcDev.aliasName) e), syn.conn, syn.wire⟩
      | .packet packet =>
        match packet.transport with
        | none => ⟨.error (.new "missing transport layer"), syn.conn, syn.wire⟩
        | some (.tcp tcpLayer) =>
          if tcpLayer.RST then ⟨.error (.new "connection reset"), syn.conn, syn.wire⟩
          else if !tcpLayer.SYN then ⟨.error (.new "invalid packet"), syn.conn, syn.wire⟩
          else
            let ack := syn.conn.handshakeACK packet handshakeConn wrAck
            match ack.result with
            | .panic m => ⟨.panic m, ack.conn, syn.wire ++ ack.wire⟩
            | .error e => ⟨.error (.wrap "acknowledge" e), ack.conn, syn.wire ++ ack.wire⟩
            | .ok _ => ⟨.ok (), ack.conn, syn.wire ++ ack.wire⟩
        | some t =>
          ⟨.error (.new ("transport layer type " ++ t.LayerType.name ++ " not support")),
            syn.conn, syn.wire⟩

/-- The function `readPacketFrom`: the reader task and, when a read deadline is set, a timer
race to the channel; `rd` is what `c.conn.ReadPacket` returns and `timerFirst`
tells that the timer's message is the one received. The first component is the
packet with its source address, or the error; the second is the address the
function returns beside an error. A TCP frame yields a UDP address. -/
def Conn.readPacketFrom (c : Conn) (rd : Except GoError Packet) (timerFirst : Bool) :
    Result (Packet × Addr) × Option Addr :=
  match c.conn with
  | none => (.panic nilDeref, none)
  | some _ =>
    if c.readDeadline ≠ 0 ∧ timerFirst = true then (.error .timeout, none)
    else
      match rd with
      | .error e => (.error e, none)
      | .ok packet =>
        match ParsePacket packet with
        | .panic m => (.panic m, none)
        | .error e => (.error (.wrap "parse" e), none)
        | .ok indicator =>
          match indicator.TransportLayerType with
          | .TCP =>
            (.ok (packet, .udp { IP := indicator.SrcIP, Port := (indicator.SrcPort : Int),
                                 Zone := [] }), none)
          | .UDP => (.ok (packet, indicator.Src), none)
          | t =>
            (.error (.new ("transport layer type " ++ t.name ++ " not support")),
              some indicator.Src)

/-- What `ReadFrom` leaves behind: `n` and `err` as the result, the address
`a`, the buffer `p` after the copy, and the connection. -/
structure ReadOutcome where
  result : Result Nat
  addr : Option Addr
  buf : Bytes
  conn : Conn

/-- The builtin `copy(p, contents)`. -/
def copyInto (p contents : Bytes) : Bytes :=
  contents.take p.length ++ p.drop contents.length

/-- The function `ReadFrom`: one frame from the data handle. A frame without an application
layer returns `(0, a, nil)` before any peer is looked up; otherwise the peer's
`ack` advances by the length of the payload before the payload is decrypted. -/
def Conn.ReadFrom (c : Conn) (p : Bytes) (rd : Except GoError Packet) (timerFirst : Bool) :
    ReadOutcome :=
  match c.readPacketFrom rd timerFirst with
  | (.panic m, a) => ⟨.panic m, a, p, c⟩
  | (.error e, a) => ⟨c.opError "read" a e, a, p, c⟩
  | (.ok (packet, a), _) =>
    match packet.application with
    | none => ⟨.ok 0, some a, p, c⟩
    | some payload =>
      match c.clients a.String with
      | none =>
        ⟨c.opError "read" (some a)
          (.new ("client " ++ String.mk a.String ++ " unauthorized")), some a, p, c⟩
      | some client =>
        let c1 := c.setClient a.String
          { client with ack := (client.ack + payload.length % 2 ^ 32) % 2 ^ 32 }
        match client.crypt with
        | none => ⟨.panic nilDeref, some a, p, c1⟩
        | some crypt =>
          match crypt.Decrypt payload with
          | .error e => ⟨c1.opError "read" (some a) (.wrap "decrypt" e), some a, p, c1⟩
          | .ok contents => ⟨.ok contents.length, some a, copyInto p contents, c1⟩

/-- The task `WriteTo` starts: looks the peer up under `key`, builds the
layers, encrypts, serializes with the ciphertext as payload, injects, and only
then advances the peer's `seq` and the IPv4 `id`. The result is the message it
sends on the channel. No TCP flag is set on this path. -/
def Conn.writeTask (c : Conn) (p : Bytes) (key : GoString) (dstIP : IP) (dstPort : Nat)
    (wr : Except GoError Nat) : Outcome Unit :=
  match c.clients key with
  | none => ⟨.error (.new ("client " ++ String.mk key ++ " unrecognized")), c, []⟩
  | some client =>
    match c.conn with
    | none => ⟨.panic nilDeref, c, []⟩
    | some rc =>
      match CreateLayers c.srcPort dstPort client.seq client.ack rc dstIP c.id 128
          rc.dstDev.hardwareAddr with
      | .panic m => ⟨.panic m, c, []⟩
      | .error e => ⟨.error (.wrap "create layers" e), c, []⟩
      | .ok ls =>
        match client.crypt with
        | none => ⟨.panic nilDeref, c, []⟩
        | some crypt =>
          match crypt.Encrypt p with
          | .error e => ⟨.error (.wrap "encrypt" e), c, []⟩
          | .ok contents =>
            match Serialize ls.link ls.network ls.transport contents with
            | .panic m => ⟨.panic m, c, []⟩
            | .error e => ⟨.error (.wrap "serialize" e), c, []⟩
            | .ok data =>
              match wr with
              | .error e => ⟨.error (.wrap "write" e), c, []⟩
              | .ok _ =>
                let c1 := c.setClient key
                  { client with seq := (client.seq + contents.length % 2 ^ 32) % 2 ^ 32 }
                ⟨.ok (), if ls.network.LayerType = .IPv4 then c1.incId else c1, [data]⟩

/-- Which message the receive `err = <-ch` of `WriteTo` gets when a timer was
started: the one of the writing task, or the one of the timer; in the second
case `taskDone` tells whether the writing task, which nothing cancels, has run
to its end. -/
inductive Sched where
  | task
  | timer (taskDone : Bool)
deriving DecidableEq, Repr

/-- The sleep of the timer `WriteTo` starts at the instant `now`, `none` when
it starts none: the timer exists when the write deadline is set, and sleeps
`c.readDeadline.Sub(time.Now())` when that is positive. -/
def Conn.writeTimer (c : Conn) (now : Time) : Option Nat :=
  if c.writeDeadline ≠ 0 then some (Time.Sub c.readDeadline now).toNat else none

/-- The sleep of the timer `readPacketFrom` starts at the instant `now`. -/
def Conn.readTimer (c : Conn) (now : Time) : Option Nat :=
  if c.readDeadline ≠ 0 then some (Time.Sub c.readDeadline now).toNat else none

/-- The body of `WriteTo` once the destination is resolved: the writing task
and, when a write deadline is set, a timer race to the channel, and the caller
returns what it receives first. -/
def Conn.writeRace (c : Conn) (p : Bytes) (addr : Addr) (dstIP : IP) (dstPort : Nat)
    (wr : Except GoError Nat) (sched : Sched) : Outcome Nat :=
  let task := c.writeTask p addr.String dstIP dstPort wr
  let timerWins : Option Bool :=
    if c.writeDeadline ≠ 0 then
      match sched with
      | .task => none
      | .timer taskDone => some taskDone
    else none
  match timerWins with
  | none =>
    match task.result with
    | .panic m => ⟨.panic m, task.conn, task.wire⟩
    | .error e => ⟨task.conn.opError "write" (some addr) e, task.conn, task.wire⟩
    | .ok _ => ⟨.ok p.length, task.conn, task.wire⟩
  | some false => ⟨c.opError "write" (some addr) .timeout, c, []⟩
  | some true =>
    match task.result with
    | .panic m => ⟨.panic m, task.conn, task.wire⟩
    | _ => ⟨task.conn.opError "write" (some addr) .timeout, task.conn, task.wire⟩

/-- The function `WriteTo`: resolves the destination from a TCP or UDP address, any other
address being refused, then runs the race of `writeRace`. -/
def Conn.WriteTo (c : Conn) (p : Bytes) (addr : Addr) (wr : Except GoError Nat)
    (sched : Sched) : Outcome Nat :=
  match addr with
  | .tcp a => c.writeRace p addr a.IP (toUint16 a.Port) wr sched
  | .udp a => c.writeRace p addr a.IP (toUint16 a.Port) wr sched
  | .other _ => ⟨c.opError "write" (some addr) (.new "type not support"), c, []⟩

/-- The function `Close`: marks the connection closed, then closes the capture handle;
`closeErr` is the error of `c.conn.Close`, if any. The peer table is left as
it is. -/
def Conn.Close (c : Conn) (closeErr : Option GoError) : Outcome Unit :=
  let c1 := { c with isClosed := true }
  match c1.conn with
  | none => ⟨.panic nilDeref, c1, []⟩
  | some _ =>
    match closeErr with
    | none => ⟨.ok (), c1, []⟩
    | some e =>
      match c1.dstAddr with
      | none => ⟨.panic nilDeref, c1, []⟩
      | some a =>
        match c1.corLocalAddr (some (.tcp a)) with
        | .panic m => ⟨.panic m, c1, []⟩
        | _ => ⟨.error (.opError "close" e), c1, []⟩

/-- The function `SetReadDeadline`. -/
def Conn.SetReadDeadline (c : Conn) (t : Time) : Conn := { c with readDeadline := t }

/-- The function `SetWriteDeadline`. -/
def Conn.SetWriteDeadline (c : Conn) (t : Time) : Conn := { c with writeDeadline := t }

/-- The function `SetDeadline`: both setters return nil, so both deadlines are set. -/
def Conn.SetDeadline (c : Conn) (t : Time) : Conn :=
  (c.SetReadDeadline t).SetWriteDeadline t

/-- One call of a frame-emitting operation, with its inputs. -/
inductive Emission where
  | handshakeSYN (conn : RawConn) (wr : Except GoError Nat)
  | handshakeSYNACK (indicator : PacketIndicator) (wr : Except GoError Nat)
  | handshakeACK (packet : Packet) (conn : RawConn) (wr : Except GoError Nat)
  | WriteTo (p : Bytes) (addr : Addr) (wr : Except GoError Nat) (sched : Sched)

/-- The call an `Emission` stands for: whether it succeeded, the connection
afterwards and the frames it injected. -/
def Conn.emit (c : Conn) : Emission → Outcome Unit
  | .handshakeSYN conn wr => c.handshakeSYN conn wr
  | .handshakeSYNACK indicator wr => c.handshakeSYNACK indicator wr
  | .handshakeACK packet conn wr => c.handshakeACK packet conn wr
  | .WriteTo p addr wr sched =>
    let o := c.WriteTo p addr wr sched
    ⟨match o.result with
      | .ok _ => .ok ()
      | .error e => .error e
      | .panic m => .panic m, o.conn, o.wire⟩

/-- A sequence of frame-emitting calls, one after the other, whatever each
returns: the connection at the end and all frames injected, in order. -/
def Conn.emitAll (c : Conn) : List Emission → Conn × List Frame
  | [] => (c, [])
  | e :: es =>
    let o := c.emit e
    let r := o.conn.emitAll es
    (r.1, o.wire ++ r.2)

/-- The number of IPv4 frames among the frames injected. -/
def countIPv4 (wire : List Frame) : Nat :=
  (wire.filter (fun f => f.network.LayerType = .IPv4)).length

/-- The effect of one emitting call on the wire and on `id`: either nothing was
injected, `id` is as before and the call did not succeed; or exactly one frame
was injected and `id` advanced by one modulo `2^16` when the frame is IPv4 and
stayed when it is not. -/
def EmitSpec {α : Type} (c : Conn) (o : Outcome α) : Prop :=
  (o.wire = [] ∧ o.conn.id = c.id ∧ ∀ v, o.result ≠ .ok v) ∨
  (∃ f, o.wire = [f] ∧
    o.conn.id = if f.network.LayerType = .IPv4 then (c.id + 1) % 2 ^ 16 else c.id)


/-- The clause `tcp && ... dst port P` that every capture filter of `conn.go`
carries: whether a frame with the transport layer `t` is one a handle opened
with that filter delivers, a TCP frame addressed to port `P`. -/
def passesFilter (P : Nat) (t : Option TransportLayer) : Bool :=
  match t with
  | some (.tcp tcp) => decide (tcp.DstPort = P)
  | _ => false

/-- Whether the input of an emitting call is one the code can hand it. The
responders are handed a frame read from a handle whose filter names the port
`srcPort` that the connection is given: `handshakeSYNACK` in `listenMulticast`
and `Listener.Accept` (filter of `listenMulticast` and `Listen`),
`handshakeACK` in `handshake` (filter of `handshake`, called by `Dial` with the
`srcPort` it assigns). `handshakeSYN` and `WriteTo` are handed no captured
frame. -/
def Emission.captured (srcPort : Nat) : Emission → Bool
  | .handshakeSYNACK indicator _ => passesFilter srcPort (some indicator.transportLayer)
  | .handshakeACK packet _ _ => passesFilter srcPort packet.transport
  | _ => true

/-- One call of an operation on a connection, with its inputs: `handshake`
(which runs `handshakeSYN` and `handshakeACK`), `handshakeSYNACK`, `WriteTo`,
`ReadFrom` or `Close`. -/
inductive Op where
  | handshake (srcDev dstDev : Device) (created : Option GoError) (wrSyn : Except GoError Nat)
      (reply : Reply) (wrAck : Except GoError Nat)
  | handshakeSYNACK (indicator : PacketIndicator) (wr : Except GoError Nat)
  | WriteTo (p : Bytes) (addr : Addr) (wr : Except GoError Nat) (sched : Sched)
  | ReadFrom (p : Bytes) (rd : Except GoError Packet) (timerFirst : Bool)
  | Close (closeErr : Option GoError)

/-- The connection after one call. -/
def Conn.step (c : Conn) : Op → Conn
  | .handshake srcDev dstDev created wrSyn reply wrAck =>
    (c.handshake srcDev dstDev created wrSyn reply wrAck).conn
  | .handshakeSYNACK indicator wr => (c.handshakeSYNACK indicator wr).conn
  | .WriteTo p addr wr sched => (c.WriteTo p addr wr sched).conn
  | .ReadFrom p rd timerFirst => (c.ReadFrom p rd timerFirst).conn
  | .Close closeErr => (c.Close closeErr).conn

/-- The connection after a sequence of calls, one after the other, whatever
each returns. -/
def Conn.run (c : Conn) : List Op → Conn
  | [] => c
  | op :: ops => (c.step op).run ops

/-! ## The words of the description, for comparison with the code -/

/-- The value of a string of decimal digits, read in base 10. -/
def decimalValue (q : GoString) : Nat := q.foldl (fun n c => n * 10 + (c.toNat - 48)) 0

/-- The words "A base-10 unsigned integer in 0..65535": a non-empty string of decimal
digits whose value is at most 65535. -/
def isUint16Literal (q : GoString) : Bool :=
  !q.isEmpty && q.all isDec && decide (decimalValue q ≤ 65535)

/-- The words "A valid IP literal": a string `net.ParseIP` accepts. -/
def isIPLiteral (h : GoString) : Bool := !(ParseIP h).isEmpty

/-- The peer a call opened, if any: the remote address when `handshake`
injected its SYN, the source of the captured SYN when `handshakeSYNACK`
injected its SYN/ACK. -/
def Conn.opened (c : Conn) : Op → Option GoString
  | .handshake srcDev dstDev created wrSyn _ _ =>
    match created with
    | some _ => none
    | none =>
      if (c.handshakeSYN { srcDev := srcDev, dstDev := dstDev } wrSyn).wire = [] then none
      else some c.RemoteAddrString
  | .handshakeSYNACK indicator wr =>
    if (c.handshakeSYNACK indicator wr).wire = [] then none else some indicator.Src.String
  | _ => none

/-- The peers a sequence of calls opened, in order. -/
def Conn.openedBy (c : Conn) : List Op → List GoString
  | [] => []
  | op :: ops => (c.opened op).toList ++ (c.step op).openedBy ops

/-- The words "a handshake for K has completed", for one call: the remote
address when `handshake` returned nil (active side), the source of the captured
SYN when `handshakeSYNACK` returned nil (passive side). -/
def Conn.completed (c : Conn) : Op → Option GoString
  | .handshake srcDev dstDev created wrSyn reply wrAck =>
    if (c.handshake srcDev dstDev created wrSyn reply wrAck).result = .ok () then
      some c.RemoteAddrString
    else none
  | .handshakeSYNACK indicator wr =>
    if (c.handshakeSYNACK indicator wr).result = .ok () then some indicator.Src.String else none
  | _ => none

/-- The peers whose handshake a sequence of calls completed, in order. -/
def Conn.completedBy (c : Conn) : List Op → List GoString
  | [] => []
  | op :: ops => (c.completed op).toList ++ (c.step op).completedBy ops

/-- The words "the write timer must use the write deadline": the sleep the
description gives the timer of `WriteTo` started at the instant `now`, the time
left up to the write deadline when that is positive; `none` when the write
deadline is zero and no timer is started. -/
def Conn.describedWriteTimer (c : Conn) (now : Time) : Option Nat :=
  if c.writeDeadline ≠ 0 then some (max 0 (c.writeDeadline - now)).toNat else none

/-! ## Worked inputs

The scenario of the description: a client at `10.0.0.1:5000` and a server at
`10.0.0.2:443`, with the identity cipher. -/

/-- The identity cipher. -/
def identityCrypt : Crypt := { Encrypt := fun b => .ok b, Decrypt := fun b => .ok b }

/-- The client's capture device. -/
def clientDev : Device :=
  { aliasName := "eth0", hardwareAddr := [2, 0, 0, 0, 0, 1], ipv4Addr := some [10, 0, 0, 1],
    ipv6Addr := none }

/-- The server's capture device. -/
def serverDev : Device :=
  { aliasName := "eth0", hardwareAddr := [2, 0, 0, 0, 0, 2], ipv4Addr := some [10, 0, 0, 2],
    ipv6Addr := none }

/-- The gateway both devices send through. -/
def gatewayDev : Device :=
  { aliasName := "gw", hardwareAddr := [2, 0, 0, 0, 0, 254], ipv4Addr := none, ipv6Addr := none }

/-- The server's address `10.0.0.2:443`. -/
def serverAddr : TCPAddr := { IP := [10, 0, 0, 2], Port := 443, Zone := [] }

/-- The client's address `10.0.0.1:5000`. -/
def clientAddr : TCPAddr := { IP := [10, 0, 0, 1], Port := 5000, Zone := [] }

/-- The client before the handshake, as `Dial` sets it up. -/
def freshClient : Conn :=
  { New with srcPort := 5000, dstAddr := some serverAddr, crypt := some identityCrypt }

/-- The client after a handshake in which the server's sequence number was
`100`. -/
def dialedClient : Conn :=
  { conn := some { srcDev := clientDev, dstDev := gatewayDev }, srcPort := 5000,
    dstAddr := some serverAddr, crypt := some identityCrypt, isClosed := false,
    clients := fun k =>
      if k = serverAddr.String then some { crypt := some identityCrypt, seq := 1, ack := 101 }
      else none,
    id := 2, readDeadline := 0, writeDeadline := 0 }

/-- A listening server that has accepted no peer yet. -/
def listeningServer : Conn :=
  { New with conn := some { srcDev := serverDev, dstDev := gatewayDev }, srcPort := 443,
             crypt := some identityCrypt }

/-- The bytes of `hello`. -/
def hello : Bytes := [104, 101, 108, 108, 111]

/-- The TCP layer of a segment from the server to the client. -/
def serverTcp (syn rst : Bool) (seq : Nat) : TCP :=
  { SrcPort := 443, DstPort := 5000, Seq := seq, Ack := 1, SYN := syn, PSH := false,
    ACK := true, RST := rst, FIN := false }

/-- A TCP frame from the server to the client with the given flags, sequence
number and payload. -/
def serverFrame (syn rst : Bool) (seq : Nat) (payload : Option Bytes) : Packet :=
  { link := some { SrcMAC := [2, 0, 0, 0, 0, 254], DstMAC := [2, 0, 0, 0, 0, 1] },
    network := some (.ipv4 [10, 0, 0, 2] [10, 0, 0, 1] 7 64),
    transport := some (.tcp (serverTcp syn rst seq)),
    application := payload, errorLayer := false }

/-- The indicator of `serverFrame`. -/
def serverInd (syn rst : Bool) (seq : Nat) (payload : Bytes) : PacketIndicator :=
  { srcIP := [10, 0, 0, 2], dstIP := [10, 0, 0, 1], srcHardwareAddr := [2, 0, 0, 0, 0, 254],
    transportLayer := .tcp (serverTcp syn rst seq), payload := payload }

/-- The TCP layer of a SYN from the client with sequence number `41`. -/
def clientSynTcp : TCP :=
  { SrcPort := 5000, DstPort := 443, Seq := 41, Ack := 0, SYN := true, PSH := false,
    ACK := false, RST := false, FIN := false }

/-- The indicator of a SYN from the client with sequence number `41`. -/
def clientSyn : PacketIndicator :=
  { srcIP := [10, 0, 0, 1], dstIP := [10, 0, 0, 2], srcHardwareAddr := [2, 0, 0, 0, 0, 254],
    transportLayer := .tcp clientSynTcp, payload := [] }

/-- An instant of the year 2022, in nanoseconds since the zero instant. -/
def startInstant : Time := 63800000000000000000

/-- A dial in which no reply arrives within the three seconds. -/
def timedOutDial : List Op := [.handshake clientDev gatewayDev none (.ok 54) .timer (.ok 54)]

/-- The server answers the client's SYN and is then closed. -/
def answerThenClose : List Op := [.handshakeSYNACK clientSyn (.ok 54), .Close none]

/-- The SYN/ACK with which the server answers `clientSyn`. -/
def serverSynAck : Frame :=
  { link := { SrcMAC := [2, 0, 0, 0, 0, 2], DstMAC := [2, 0, 0, 0, 0, 254] },
    network := .ipv4 [10, 0, 0, 2] [10, 0, 0, 1] 0 64,
    transport := { SrcPort := 443, DstPort := 5000, Seq := 0, Ack := 42, SYN := true,
                   PSH := false, ACK := true, RST := false, FIN := false },
    payload := [] }

/-- The ACK with which the client answers the server's SYN/ACK of sequence
number `100`. -/
def clientAck : Frame :=
  { link := { SrcMAC := [2, 0, 0, 0, 0, 1], DstMAC := [2, 0, 0, 0, 0, 254] },
    network := .ipv4 [10, 0, 0, 1] [10, 0, 0, 2] 1 128,
    transport := { SrcPort := 5000, DstPort := 443, Seq := 1, Ack := 101, SYN := false,
                   PSH := false, ACK := true, RST := false, FIN := false },
    payload := [] }

/-! # Theorems -/

/-! ## The data path: `WriteTo` and `ReadFrom` -/

/-- A successful writing task found the peer, built the layers and encrypted,
and its whole effect is known. -/
theorem writeTask_ok_inv (c : Conn) (p : Bytes) (key : GoString) (dstIP : IP) (dstPort : Nat)
    (wr : Except GoError Nat)
    (h : (c.writeTask p key dstIP dstPort wr).result = .ok ()) :
    ∃ client rc ls crypt contents,
      c.clients key = some client ∧ c.conn = some rc ∧
      CreateLayers c.srcPort dstPort client.seq client.ack rc dstIP c.id 128
        rc.dstDev.hardwareAddr = .ok ls ∧
      client.crypt = some crypt ∧ crypt.Encrypt p = .ok contents ∧
      c.writeTask p key dstIP dstPort wr =
        ⟨.ok (),
         if ls.network.LayerType = .IPv4 then
           (c.setClient key
             { client with seq := (client.seq + contents.length % 2 ^ 32) % 2 ^ 32 }).incId
         else c.setClient key
             { client with seq := (client.seq + contents.length % 2 ^ 32) % 2 ^ 32 },
         [⟨ls.link, ls.network, ls.transport, contents⟩]⟩ := by
  unfold Conn.writeTask at h ⊢
  cases hcl : c.clients key with
  | none => simp [hcl] at h
  | some client =>
    cases hrc : c.conn with
    | none => simp [hcl, hrc] at h
    | some rc =>
      cases hls : CreateLayers c.srcPort dstPort client.seq client.ack rc dstIP c.id 128
          rc.dstDev.hardwareAddr with
      | panic m => simp [hcl, hrc, hls] at h
      | error e => simp [hcl, hrc, hls] at h
      | ok ls =>
        cases hcr : client.crypt with
        | none => simp [hcl, hrc, hls, hcr] at h
        | some crypt =>
          cases hen : crypt.Encrypt p with
          | error e => simp [hcl, hrc, hls, hcr, hen] at h
          | ok contents =>
            cases wr with
            | error e => simp [hcl, hrc, hls, hcr, hen, Serialize] at h
            | ok k =>
              refine ⟨client, rc, ls, crypt, contents, rfl, rfl, hls, hcr, hen, ?_⟩
              simp [hls, hcr, hen, Serialize]

/-- The peer table after `setClient`. -/
theorem setClient_clients (c : Conn) (key k : GoString) (cl : clientIndicator) :
    (c.setClient key cl).clients k = if k = key then some cl else c.clients k := rfl

/-- The statement `c.id++` leaves the peer table alone. -/
theorem incId_clients (c : Conn) : c.incId.clients = c.clients := rfl

/-- Building an `OpError` never yields a value. -/
theorem opError_ne_ok {α : Type} (c : Conn) (op : String) (a : Option Addr) (e : GoError)
    (v : α) : (c.opError op a e : Result α) ≠ .ok v := by
  unfold Conn.opError
  split <;> simp

/-- A successful race delivered the message of the writing task: the task
succeeded, and the connection afterwards is the one the task left. -/
theorem writeRace_ok_inv (c : Conn) (p : Bytes) (addr : Addr) (dstIP : IP) (dstPort : Nat)
    (wr : Except GoError Nat) (sched : Sched) (n : Nat)
    (h : (c.writeRace p addr dstIP dstPort wr sched).result = .ok n) :
    (c.writeTask p addr.String dstIP dstPort wr).result = .ok () ∧
    (c.writeRace p addr dstIP dstPort wr sched).conn =
      (c.writeTask p addr.String dstIP dstPort wr).conn ∧
    (c.writeRace p addr dstIP dstPort wr sched).wire =
      (c.writeTask p addr.String dstIP dstPort wr).wire ∧
    n = p.length := by
  unfold Conn.writeRace at h ⊢
  dsimp only at h ⊢
  split at h
  · cases hres : (c.writeTask p addr.String dstIP dstPort wr).result with
    | panic m => simp [hres] at h
    | error e => rw [hres] at h; exact absurd h (opError_ne_ok _ _ _ _ _)
    | ok u =>
      simp only [hres, Result.ok.injEq] at h
      exact ⟨rfl, rfl, rfl, h.symm⟩
  · exact absurd h (opError_ne_ok _ _ _ _ _)
  · split at h
    · simp at h
    · exact absurd h (opError_ne_ok _ _ _ _ _)

/-- A successful `WriteTo` delivered the message of its writing task. -/
theorem WriteTo_ok_inv (c : Conn) (p : Bytes) (addr : Addr) (wr : Except GoError Nat)
    (sched : Sched) (n : Nat) (h : (c.WriteTo p addr wr sched).result = .ok n) :
    ∃ dstIP dstPort,
      (c.writeTask p addr.String dstIP dstPort wr).result = .ok () ∧
      (c.WriteTo p addr wr sched).conn = (c.writeTask p addr.String dstIP dstPort wr).conn ∧
      (c.WriteTo p addr wr sched).wire = (c.writeTask p addr.String dstIP dstPort wr).wire ∧
      n = p.length := by
  cases addr with
  | tcp a => exact ⟨a.IP, toUint16 a.Port, writeRace_ok_inv c p _ _ _ wr sched n h⟩
  | udp a => exact ⟨a.IP, toUint16 a.Port, writeRace_ok_inv c p _ _ _ wr sched n h⟩
  | other str =>
    have h1 : (c.opError "write" (some (Addr.other str)) (.new "type not support") : Result Nat)
        = .ok n := h
    exact absurd h1 (opError_ne_ok _ _ _ _ _)

/-- C1: when `WriteTo(b, P)` succeeds for a peer `P` of the table, the peer's
cipher encrypted `b`, and afterwards `P.seq` is the earlier `seq` plus the
length of the ciphertext modulo `2^32`, `P.ack` is unchanged, and the returned
`n` is `len(b)`. -/
theorem WriteTo_advances_seq (c : Conn) (b : Bytes) (addr : Addr) (wr : Except GoError Nat)
    (sched : Sched) (peer : clientIndicator) (n : Nat)
    (hpeer : c.clients addr.String = some peer)
    (hok : (c.WriteTo b addr wr sched).result = .ok n) :
    ∃ crypt contents peer1,
      peer.crypt = some crypt ∧ crypt.Encrypt b = .ok contents ∧
      (c.WriteTo b addr wr sched).conn.clients addr.String = some peer1 ∧
      peer1.seq = (peer.seq + contents.length) % 2 ^ 32 ∧
      peer1.ack = peer.ack ∧
      n = b.length := by
  obtain ⟨dstIP, dstPort, htask, hconn, -, hn⟩ := WriteTo_ok_inv c b addr wr sched n hok
  obtain ⟨client, rc, ls, crypt, contents, hcl, -, -, hcr, hen, heq⟩ :=
    writeTask_ok_inv c b addr.String dstIP dstPort wr htask
  rw [hpeer] at hcl
  cases hcl
  refine ⟨crypt, contents,
    { peer with seq := (peer.seq + contents.length % 2 ^ 32) % 2 ^ 32 }, hcr, hen, ?_, ?_, rfl, hn⟩
  · rw [hconn, heq]
    dsimp only
    split_ifs <;> simp [incId_clients, setClient_clients]
  · simp

/-- C1 at the scenario of the description: the client writes `hello` to the
server with the identity cipher, and its `seq` goes from 1 to 6. -/
theorem WriteTo_advances_seq_witness :
    ∃ crypt contents peer1,
      (some identityCrypt : Option Crypt) = some crypt ∧ crypt.Encrypt hello = .ok contents ∧
      (dialedClient.WriteTo hello (.tcp serverAddr) (.ok 59) .task).conn.clients
        (Addr.tcp serverAddr).String = some peer1 ∧
      peer1.seq = (1 + contents.length) % 2 ^ 32 ∧
      peer1.ack = 101 ∧
      5 = hello.length :=
  WriteTo_advances_seq dialedClient hello (.tcp serverAddr) (.ok 59) .task
    { crypt := some identityCrypt, seq := 1, ack := 101 } 5 (by rfl) (by rfl)

/-- A TCP address and a UDP address with the same fields print alike. -/
theorem PacketIndicator.Src_String_tcp (ind : PacketIndicator) (tcp : TCP)
    (htcp : ind.transportLayer = .tcp tcp) :
    ind.Src.String = (Addr.udp { IP := ind.SrcIP, Port := (ind.SrcPort : Int), Zone := [] }).String := by
  simp [PacketIndicator.Src, htcp, Addr.String, TCPAddr.String, UDPAddr.String,
    PacketIndicator.SrcIP]

/-- What `readPacketFrom` returns for a TCP frame that parses, once a read has
succeeded. -/
theorem readPacketFrom_tcp (c : Conn) (packet : Packet) (timerFirst : Bool)
    (ind : PacketIndicator) (tcp : TCP)
    (hparse : ParsePacket packet = .ok ind) (htcp : ind.transportLayer = .tcp tcp) :
    c.readPacketFrom (.ok packet) timerFirst =
        (.ok (packet, .udp { IP := ind.SrcIP, Port := (ind.SrcPort : Int), Zone := [] }), none) ∨
      (c.readPacketFrom (.ok packet) timerFirst).2 = none ∧
        ∀ v, (c.readPacketFrom (.ok packet) timerFirst).1 ≠ .ok v := by
  unfold Conn.readPacketFrom
  cases c.conn with
  | none => right; simp
  | some rc =>
    by_cases hd : c.readDeadline ≠ 0 ∧ timerFirst = true
    · right; simp [hd]
    · left
      simp only [hd, if_false, hparse, PacketIndicator.TransportLayerType, htcp,
        TransportLayer.LayerType]

/-- C2: when `ReadFrom` succeeds on a captured TCP frame whose source has a
peer-table entry and which carries an application payload of `N` bytes, the
peer's cipher decrypted the payload, and afterwards the peer's `ack` is the
earlier `ack` plus `N` modulo `2^32`, its `seq` is unchanged, the returned
address is a UDP address with the frame's source IP and source port, and the
returned `n` is the length of the decrypted payload. -/
theorem ReadFrom_advances_ack (c : Conn) (p : Bytes) (packet : Packet) (timerFirst : Bool)
    (ind : PacketIndicator) (tcp : TCP) (payload : Bytes) (peer : clientIndicator) (n : Nat)
    (hparse : ParsePacket packet = .ok ind)
    (htcp : ind.transportLayer = .tcp tcp)
    (happ : packet.application = some payload)
    (hpeer : c.clients ind.Src.String = some peer)
    (hok : (c.ReadFrom p (.ok packet) timerFirst).result = .ok n) :
    ∃ crypt contents peer1,
      peer.crypt = some crypt ∧ crypt.Decrypt payload = .ok contents ∧
      (c.ReadFrom p (.ok packet) timerFirst).conn.clients ind.Src.String = some peer1 ∧
      peer1.ack = (peer.ack + payload.length) % 2 ^ 32 ∧
      peer1.seq = peer.seq ∧
      (c.ReadFrom p (.ok packet) timerFirst).addr =
        some (.udp { IP := ind.SrcIP, Port := (ind.SrcPort : Int), Zone := [] }) ∧
      n = contents.length := by
  rw [PacketIndicator.Src_String_tcp ind tcp htcp] at hpeer ⊢
  unfold Conn.ReadFrom at hok ⊢
  rcases readPacketFrom_tcp c packet timerFirst ind tcp hparse htcp with hr | ⟨-, hr⟩
  · rw [hr] at hok ⊢
    simp only [happ, hpeer] at hok ⊢
    rcases Option.eq_none_or_eq_some peer.crypt with hcr | ⟨crypt, hcr⟩
    · simp [hcr] at hok
    · cases hde : crypt.Decrypt payload with
      | error e =>
        simp only [hcr, hde] at hok
        exact absurd hok (opError_ne_ok _ _ _ _ _)
      | ok contents =>
        simp only [hcr, hde, Result.ok.injEq] at hok
        refine ⟨crypt, contents,
          { peer with ack := (peer.ack + payload.length % 2 ^ 32) % 2 ^ 32 }, hcr, hde, ?_, ?_,
          rfl, ?_, hok.symm⟩
        · simp only [hcr, hde, setClient_clients, if_true]
        · simp
        · simp only [hcr, hde]
  · exfalso
    revert hok hr
    generalize c.readPacketFrom (.ok packet) timerFirst = r
    rcases r with ⟨r1, r2⟩
    intro hok hr
    cases r1 with
    | panic m => simp at hok
    | error e => exact absurd hok (opError_ne_ok _ _ _ _ _)
    | ok v => exact hr v rfl

/-- C2 at the scenario of the description: the client reads a segment of five
payload bytes from the server, and its `ack` goes from 101 to 106. -/
theorem ReadFrom_advances_ack_witness :
    ∃ crypt contents peer1,
      (some identityCrypt : Option Crypt) = some crypt ∧ crypt.Decrypt hello = .ok contents ∧
      (dialedClient.ReadFrom [0, 0, 0] (.ok (serverFrame false false 101 (some hello))) false
        ).conn.clients serverAddr.String = some peer1 ∧
      peer1.ack = (101 + hello.length) % 2 ^ 32 ∧
      peer1.seq = 1 ∧
      (dialedClient.ReadFrom [0, 0, 0] (.ok (serverFrame false false 101 (some hello))) false
        ).addr = some (.udp { IP := [10, 0, 0, 2], Port := 443, Zone := [] }) ∧
      5 = contents.length :=
  ReadFrom_advances_ack dialedClient [0, 0, 0] (serverFrame false false 101 (some hello)) false
    (serverInd false false 101 hello) (serverTcp false false 101)
    hello { crypt := some identityCrypt, seq := 1, ack := 101 } 5 (by rfl) (by rfl) (by rfl)
    (by rfl) (by rfl)

/-- C7: for a connection with its data handle and a captured TCP frame (the
frame, not a timer, is what the read delivers, and it parses as TCP) that has
no application layer, `ReadFrom` returns `(0, addr, nil)` with `addr` the UDP
address of the frame's source, and the connection, in particular the whole
peer table, and the buffer are unchanged. -/
theorem ReadFrom_no_application_layer (c : Conn) (p : Bytes) (packet : Packet)
    (timerFirst : Bool) (rc : RawConn) (ind : PacketIndicator) (tcp : TCP)
    (hconn : c.conn = some rc)
    (hcap : c.readDeadline = 0 ∨ timerFirst = false)
    (hparse : ParsePacket packet = .ok ind)
    (htcp : ind.transportLayer = .tcp tcp)
    (happ : packet.application = none) :
    (c.ReadFrom p (.ok packet) timerFirst).result = .ok 0 ∧
    (c.ReadFrom p (.ok packet) timerFirst).addr =
      some (.udp { IP := ind.SrcIP, Port := (ind.SrcPort : Int), Zone := [] }) ∧
    (c.ReadFrom p (.ok packet) timerFirst).conn = c ∧
    (c.ReadFrom p (.ok packet) timerFirst).buf = p := by
  have hr : c.readPacketFrom (.ok packet) timerFirst =
      (.ok (packet, .udp { IP := ind.SrcIP, Port := (ind.SrcPort : Int), Zone := [] }), none) := by
    unfold Conn.readPacketFrom
    have hd : ¬ (c.readDeadline ≠ 0 ∧ timerFirst = true) := by
      rcases hcap with h | h <;> simp [h]
    simp only [hconn, hd, if_false, hparse, PacketIndicator.TransportLayerType, htcp,
      TransportLayer.LayerType]
  unfold Conn.ReadFrom
  rw [hr]
  simp [happ]

/-- C7 at the scenario of the description: the client reads a bare ACK of the
server. -/
theorem ReadFrom_no_application_layer_witness :
    (dialedClient.ReadFrom [0, 0, 0] (.ok (serverFrame false false 101 none)) true).result
      = .ok 0 ∧
    (dialedClient.ReadFrom [0, 0, 0] (.ok (serverFrame false false 101 none)) true).addr =
      some (.udp { IP := [10, 0, 0, 2], Port := 443, Zone := [] }) ∧
    (dialedClient.ReadFrom [0, 0, 0] (.ok (serverFrame false false 101 none)) true).conn
      = dialedClient ∧
    (dialedClient.ReadFrom [0, 0, 0] (.ok (serverFrame false false 101 none)) true).buf
      = [0, 0, 0] :=
  ReadFrom_no_application_layer dialedClient [0, 0, 0] (serverFrame false false 101 none) true
    { srcDev := clientDev, dstDev := gatewayDev } (serverInd false false 101 [])
    (serverTcp false false 101) (by rfl) (Or.inl (by rfl)) (by rfl) (by rfl) (by rfl)

/-! ## The IPv4 identification counter -/

/-- The function `setClient` leaves `id` alone. -/
theorem setClient_id (c : Conn) (key : GoString) (cl : clientIndicator) :
    (c.setClient key cl).id = c.id := rfl

/-- The value of `id` after `c.id++`. -/
theorem incId_id (c : Conn) : c.incId.id = (c.id + 1) % 2 ^ 16 := rfl

/-- The function `handshakeSYN` meets `EmitSpec`. -/
theorem handshakeSYN_emit (c : Conn) (conn : RawConn) (wr : Except GoError Nat) :
    EmitSpec c (c.handshakeSYN conn wr) := by
  unfold Conn.handshakeSYN EmitSpec
  simp only [Serialize]
  repeat' split
  all_goals first
    | (left; exact ⟨rfl, rfl, by intro v; simp⟩)
    | (right; refine ⟨_, rfl, ?_⟩; simp_all [incId_id, setClient_id])

/-- The function `handshakeSYNACK` meets `EmitSpec`. -/
theorem handshakeSYNACK_emit (c : Conn) (ind : PacketIndicator) (wr : Except GoError Nat) :
    EmitSpec c (c.handshakeSYNACK ind wr) := by
  unfold Conn.handshakeSYNACK EmitSpec
  simp only [Serialize]
  repeat' split
  all_goals first
    | (left; exact ⟨rfl, rfl, by intro v; simp⟩)
    | (right; refine ⟨_, rfl, ?_⟩; simp_all [incId_id, setClient_id])

/-- The function `handshakeACK` meets `EmitSpec`. -/
theorem handshakeACK_emit (c : Conn) (packet : Packet) (conn : RawConn)
    (wr : Except GoError Nat) : EmitSpec c (c.handshakeACK packet conn wr) := by
  unfold Conn.handshakeACK EmitSpec
  simp only [Serialize]
  repeat' split
  all_goals first
    | (left; exact ⟨rfl, rfl, by intro v; simp⟩)
    | (right; refine ⟨_, rfl, ?_⟩; simp_all [incId_id, setClient_id])

/-- The writing task meets `EmitSpec`. -/
theorem writeTask_emit (c : Conn) (p : Bytes) (key : GoString) (dstIP : IP) (dstPort : Nat)
    (wr : Except GoError Nat) : EmitSpec c (c.writeTask p key dstIP dstPort wr) := by
  unfold Conn.writeTask EmitSpec
  simp only [Serialize]
  repeat' split
  all_goals first
    | (left; exact ⟨rfl, rfl, by intro v; simp⟩)
    | (right; refine ⟨_, rfl, ?_⟩; simp_all [incId_id, setClient_id])

/-- The race of `WriteTo` meets `EmitSpec`. -/
theorem writeRace_emit (c : Conn) (p : Bytes) (addr : Addr) (dstIP : IP) (dstPort : Nat)
    (wr : Except GoError Nat) (sched : Sched) :
    EmitSpec c (c.writeRace p addr dstIP dstPort wr sched) := by
  have ht := writeTask_emit c p addr.String dstIP dstPort wr
  unfold Conn.writeRace
  unfold EmitSpec at ht ⊢
  dsimp only
  split
  · rcases ht with ⟨h1, h2, h3⟩ | ⟨f, h1, h2⟩
    · left
      split
      · exact ⟨h1, h2, by intro v; simp⟩
      · exact ⟨h1, h2, fun v => opError_ne_ok _ _ _ _ v⟩
      · rename_i u hu
        exact absurd hu (h3 u)
    · right
      refine ⟨f, ?_, ?_⟩ <;> split <;> assumption
  · left
    exact ⟨rfl, rfl, fun v => opError_ne_ok _ _ _ _ v⟩
  · rcases ht with ⟨h1, h2, -⟩ | ⟨f, h1, h2⟩
    · left
      split
      · exact ⟨h1, h2, by intro v; simp⟩
      · exact ⟨h1, h2, fun v => opError_ne_ok _ _ _ _ v⟩
    · right
      refine ⟨f, ?_, ?_⟩ <;> split <;> assumption

/-- The function `WriteTo` meets `EmitSpec`. -/
theorem WriteTo_emit (c : Conn) (p : Bytes) (addr : Addr) (wr : Except GoError Nat)
    (sched : Sched) : EmitSpec c (c.WriteTo p addr wr sched) := by
  cases addr with
  | tcp a => exact writeRace_emit c p _ _ _ wr sched
  | udp a => exact writeRace_emit c p _ _ _ wr sched
  | other str =>
    refine Or.inl ⟨rfl, rfl, fun v => ?_⟩
    show (c.opError "write" (some (Addr.other str)) (.new "type not support") : Result Nat) ≠ .ok v
    exact opError_ne_ok _ _ _ _ v

/-- Every emitting call meets `EmitSpec`. -/
theorem emit_spec (c : Conn) (e : Emission) : EmitSpec c (c.emit e) := by
  cases e with
  | handshakeSYN conn wr => exact handshakeSYN_emit c conn wr
  | handshakeSYNACK ind wr => exact handshakeSYNACK_emit c ind wr
  | handshakeACK packet conn wr => exact handshakeACK_emit c packet conn wr
  | WriteTo p addr wr sched =>
    have h := WriteTo_emit c p addr wr sched
    unfold EmitSpec at h ⊢
    simp only [Conn.emit]
    rcases h with ⟨h1, h2, h3⟩ | h
    · left
      refine ⟨h1, h2, ?_⟩
      intro v
      cases hr : (c.WriteTo p addr wr sched).result with
      | ok n => exact absurd hr (h3 n)
      | error e => simp
      | panic m => simp
    · right; exact h

/-- IPv4 frames are counted piecewise. -/
theorem countIPv4_append (a b : List Frame) : countIPv4 (a ++ b) = countIPv4 a + countIPv4 b := by
  simp [countIPv4]

/-- One call advances `id` by the IPv4 frames it injected, modulo `2^16`. -/
theorem emit_id (c : Conn) (e : Emission) :
    (c.emit e).conn.id % 2 ^ 16 = (c.id + countIPv4 (c.emit e).wire) % 2 ^ 16 := by
  rcases emit_spec c e with ⟨h1, h2, -⟩ | ⟨f, h1, h2⟩
  · rw [h1, h2]; simp [countIPv4]
  · rw [h1, h2]
    by_cases hf : f.network.LayerType = .IPv4
    · simp [countIPv4, hf]
    · simp [countIPv4, hf]

/-- A sequence of calls advances `id` by the IPv4 frames injected, modulo
`2^16`. -/
theorem emitAll_id (es : List Emission) (c : Conn) :
    (c.emitAll es).1.id % 2 ^ 16 = (c.id + countIPv4 (c.emitAll es).2) % 2 ^ 16 := by
  induction es generalizing c with
  | nil => simp [Conn.emitAll, countIPv4]
  | cons e es ih =>
    simp only [Conn.emitAll, countIPv4_append]
    rw [ih (c.emit e).conn, Nat.add_mod, emit_id c e]
    omega

/-- One call keeps `id` a `uint16`. -/
theorem emit_id_lt (c : Conn) (e : Emission) (h : c.id < 2 ^ 16) :
    (c.emit e).conn.id < 2 ^ 16 := by
  rcases emit_spec c e with ⟨-, h2, -⟩ | ⟨f, -, h2⟩
  · rw [h2]; exact h
  · rw [h2]; split_ifs
    · exact Nat.mod_lt _ (by norm_num)
    · exact h

/-- A sequence of calls keeps `id` a `uint16`. -/
theorem emitAll_id_lt (es : List Emission) (c : Conn) (h : c.id < 2 ^ 16) :
    (c.emitAll es).1.id < 2 ^ 16 := by
  induction es generalizing c with
  | nil => exact h
  | cons e es ih => exact ih _ (emit_id_lt c e h)

/-- C3: for a connection whose `id` is a `uint16`, one frame-emitting call
(`handshakeSYN`, `handshakeSYNACK`, `handshakeACK` or `WriteTo`) `e` and a
sequence `es` of such calls: when `e` succeeds it injected exactly one frame,
and `id` became `(id + 1) mod 2^16` if that frame is IPv4 and stayed if it is
IPv6; when `e` fails without injecting, `id` stays; and after `es`, `id` is the
initial `id` plus the number of IPv4 frames injected, modulo `2^16`. -/
theorem id_counts_IPv4_emissions (c : Conn) (e : Emission) (es : List Emission)
    (hid : c.id < 2 ^ 16) :
    ((c.emit e).result = .ok () →
      ∃ f, (c.emit e).wire = [f] ∧
        (c.emit e).conn.id =
          if f.network.LayerType = .IPv4 then (c.id + 1) % 2 ^ 16 else c.id) ∧
    ((c.emit e).result ≠ .ok () → (c.emit e).wire = [] → (c.emit e).conn.id = c.id) ∧
    (c.emitAll es).1.id = (c.id + countIPv4 (c.emitAll es).2) % 2 ^ 16 := by
  refine ⟨?_, ?_, ?_⟩
  · intro hok
    rcases emit_spec c e with ⟨-, -, h3⟩ | h
    · exact absurd hok (h3 ())
    · exact h
  · intro _ hw
    rcases emit_spec c e with ⟨-, h2, -⟩ | ⟨f, h1, -⟩
    · exact h2
    · rw [hw] at h1; cases h1
  · rw [← emitAll_id es c, Nat.mod_eq_of_lt (emitAll_id_lt es c hid)]

/-- C3 at the scenario of the description: the client writes `hello` twice
over IPv4 and its `id` goes from 2 to 4. -/
theorem id_counts_IPv4_emissions_witness :
    ((dialedClient.emit (.WriteTo hello (.tcp serverAddr) (.ok 59) .task)).result = .ok () →
      ∃ f, (dialedClient.emit (.WriteTo hello (.tcp serverAddr) (.ok 59) .task)).wire = [f] ∧
        (dialedClient.emit (.WriteTo hello (.tcp serverAddr) (.ok 59) .task)).conn.id =
          if f.network.LayerType = .IPv4 then (2 + 1) % 2 ^ 16 else 2) ∧
    ((dialedClient.emit (.WriteTo hello (.tcp serverAddr) (.ok 59) .task)).result ≠ .ok () →
      (dialedClient.emit (.WriteTo hello (.tcp serverAddr) (.ok 59) .task)).wire = [] →
      (dialedClient.emit (.WriteTo hello (.tcp serverAddr) (.ok 59) .task)).conn.id = 2) ∧
    (dialedClient.emitAll [.WriteTo hello (.tcp serverAddr) (.ok 59) .task,
        .WriteTo hello (.tcp serverAddr) (.ok 59) .task]).1.id =
      (2 + countIPv4 (dialedClient.emitAll [.WriteTo hello (.tcp serverAddr) (.ok 59) .task,
        .WriteTo hello (.tcp serverAddr) (.ok 59) .task]).2) % 2 ^ 16 :=
  id_counts_IPv4_emissions dialedClient (.WriteTo hello (.tcp serverAddr) (.ok 59) .task)
    [.WriteTo hello (.tcp serverAddr) (.ok 59) .task,
      .WriteTo hello (.tcp serverAddr) (.ok 59) .task] (by decide)

/-! ## The handshake -/

/-- What `CreateLayers` builds when it succeeds. -/
theorem CreateLayers_ok (srcPort dstPort seq ack : Nat) (conn : RawConn) (dstIP : IP)
    (id ttl : Nat) (hw : HardwareAddr) (ls : Layers)
    (h : CreateLayers srcPort dstPort seq ack conn dstIP id ttl hw = .ok ls) :
    ls.transport = { SrcPort := srcPort, DstPort := dstPort, Seq := seq, Ack := ack,
                     SYN := false, PSH := false, ACK := false, RST := false, FIN := false } ∧
    ls.link = { SrcMAC := conn.srcDev.hardwareAddr, DstMAC := hw } ∧
    ls.network.DstIP = dstIP := by
  unfold CreateLayers at h
  dsimp only at h
  split_ifs at h
  · split at h
    · simp at h
    · simp only [Result.ok.injEq] at h; subst h; exact ⟨rfl, rfl, rfl⟩
  · split at h
    · simp at h
    · simp only [Result.ok.injEq] at h; subst h; exact ⟨rfl, rfl, rfl⟩

/-- A successful `handshakeSYN` and its whole effect. -/
theorem handshakeSYN_ok_inv (c : Conn) (conn : RawConn) (wr : Except GoError Nat)
    (h : (c.handshakeSYN conn wr).result = .ok ()) :
    ∃ dstAddr ls,
      c.dstAddr = some dstAddr ∧
      CreateLayers c.srcPort (toUint16 dstAddr.Port) 0 0 conn dstAddr.IP c.id 128
        conn.dstDev.hardwareAddr = .ok ls ∧
      (c.handshakeSYN conn wr).wire =
        [⟨ls.link, ls.network, FlagTCPLayer ls.transport true false false, []⟩] ∧
      (c.handshakeSYN conn wr).conn.clients =
        (c.setClient dstAddr.String { crypt := c.crypt, seq := 1, ack := 0 }).clients ∧
      (c.handshakeSYN conn wr).conn.dstAddr = c.dstAddr := by
  unfold Conn.handshakeSYN at h ⊢
  dsimp only at h ⊢
  cases hd : c.dstAddr with
  | none => rw [hd] at h; simp at h
  | some dstAddr =>
    simp only [hd] at h ⊢
    cases hls : CreateLayers c.srcPort (toUint16 dstAddr.Port) 0 0 conn dstAddr.IP c.id 128
        conn.dstDev.hardwareAddr with
    | panic m => rw [hls] at h; simp at h
    | error e => rw [hls] at h; simp at h
    | ok ls =>
      cases wr with
      | error e => rw [hls] at h; simp [Serialize] at h
      | ok k =>
        refine ⟨dstAddr, ls, rfl, hls, ?_, ?_, ?_⟩
        · simp only [Serialize]
        · simp only [Conn.RemoteAddrString, hd, Serialize]
          split_ifs <;> rfl
        · simp only [Serialize]
          split_ifs <;> simp [Conn.incId, Conn.setClient, hd]

/-- A successful `handshakeSYNACK` and its whole effect. -/
theorem handshakeSYNACK_ok_inv (c : Conn) (ind : PacketIndicator) (wr : Except GoError Nat)
    (h : (c.handshakeSYNACK ind wr).result = .ok ()) :
    ∃ tcp rc ls,
      ind.transportLayer = .tcp tcp ∧ c.conn = some rc ∧
      CreateLayers ind.DstPort ind.SrcPort 0 ((tcp.Seq + 1) % 2 ^ 32) rc ind.SrcIP c.id 64
        ind.SrcHardwareAddr = .ok ls ∧
      (c.handshakeSYNACK ind wr).wire =
        [⟨ls.link, ls.network, FlagTCPLayer ls.transport true false true, []⟩] ∧
      (c.handshakeSYNACK ind wr).conn.clients =
        (c.setClient ind.Src.String
          { crypt := c.crypt, seq := 1, ack := (tcp.Seq + 1) % 2 ^ 32 }).clients := by
  unfold Conn.handshakeSYNACK at h ⊢
  dsimp only at h ⊢
  cases ht : ind.transportLayer with
  | udp u => simp [PacketIndicator.TransportLayerType, ht, TransportLayer.LayerType] at h
  | other nm => simp [PacketIndicator.TransportLayerType, ht, TransportLayer.LayerType] at h
  | tcp tcp =>
    simp only [PacketIndicator.TransportLayerType, ht, TransportLayer.LayerType,
      PacketIndicator.TCPLayer, ne_eq, not_true_eq_false, if_false] at h ⊢
    cases hrc : c.conn with
    | none => simp [hrc] at h
    | some rc =>
      simp only [hrc] at h ⊢
      cases hls : CreateLayers ind.DstPort ind.SrcPort 0 ((tcp.Seq + 1) % 2 ^ 32) rc ind.SrcIP
          c.id 64 ind.SrcHardwareAddr with
      | panic m => rw [hls] at h; simp at h
      | error e => rw [hls] at h; simp at h
      | ok ls =>
        cases wr with
        | error e => rw [hls] at h; simp [Serialize] at h
        | ok k =>
          refine ⟨tcp, rc, ls, rfl, rfl, hls, ?_, ?_⟩
          · simp only [Serialize]
          · simp only [Serialize]
            split_ifs <;> rfl

/-- C10: when `handshakeSYNACK` succeeds on a parsed TCP indicator with source
`A` and sequence number `S`, it injected exactly one frame, with SYN and ACK
set and PSH clear, `seq = 0` and `ack = (S + 1) mod 2^32`, addressed to the
port, IP and hardware address of `A`; afterwards the peer table maps `A` to
`seq = 1` and `ack = (S + 1) mod 2^32`, whatever it held for `A` before, and
the entry of any other key `k` is unchanged. -/
theorem handshakeSYNACK_responds (c : Conn) (ind : PacketIndicator) (tcp : TCP)
    (wr : Except GoError Nat) (k : GoString)
    (htcp : ind.transportLayer = .tcp tcp)
    (hok : (c.handshakeSYNACK ind wr).result = .ok ()) :
    (∃ f, (c.handshakeSYNACK ind wr).wire = [f] ∧
      f.transport.SYN = true ∧ f.transport.ACK = true ∧ f.transport.PSH = false ∧
      f.transport.Seq = 0 ∧ f.transport.Ack = (tcp.Seq + 1) % 2 ^ 32 ∧
      f.transport.DstPort = ind.SrcPort ∧ f.network.DstIP = ind.SrcIP ∧
      f.link.DstMAC = ind.SrcHardwareAddr) ∧
    (∃ peer, (c.handshakeSYNACK ind wr).conn.clients ind.Src.String = some peer ∧
      peer.seq = 1 ∧ peer.ack = (tcp.Seq + 1) % 2 ^ 32) ∧
    (k ≠ ind.Src.String → (c.handshakeSYNACK ind wr).conn.clients k = c.clients k) := by
  obtain ⟨tcp1, rc, ls, ht, -, hls, hw, hc⟩ := handshakeSYNACK_ok_inv c ind wr hok
  rw [htcp] at ht
  cases ht
  obtain ⟨h1, h2, h3⟩ := CreateLayers_ok _ _ _ _ _ _ _ _ _ _ hls
  refine ⟨⟨_, hw, ?_⟩, ⟨{ crypt := c.crypt, seq := 1, ack := (tcp.Seq + 1) % 2 ^ 32 }, ?_, rfl, rfl⟩, ?_⟩
  · simp [FlagTCPLayer, h1, h2, h3]
  · rw [hc]; simp [setClient_clients]
  · intro hk
    rw [hc]; simp [setClient_clients, hk]

/-- C10 at the scenario of the description: the server answers the client's
SYN of sequence number 41. -/
theorem handshakeSYNACK_responds_witness :
    (∃ f, (listeningServer.handshakeSYNACK clientSyn (.ok 54)).wire = [f] ∧
      f.transport.SYN = true ∧ f.transport.ACK = true ∧ f.transport.PSH = false ∧
      f.transport.Seq = 0 ∧ f.transport.Ack = (41 + 1) % 2 ^ 32 ∧
      f.transport.DstPort = 5000 ∧ f.network.DstIP = [10, 0, 0, 1] ∧
      f.link.DstMAC = [2, 0, 0, 0, 0, 254]) ∧
    (∃ peer, (listeningServer.handshakeSYNACK clientSyn (.ok 54)).conn.clients
        clientAddr.String = some peer ∧
      peer.seq = 1 ∧ peer.ack = (41 + 1) % 2 ^ 32) ∧
    (serverAddr.String ≠ clientAddr.String →
      (listeningServer.handshakeSYNACK clientSyn (.ok 54)).conn.clients serverAddr.String =
        listeningServer.clients serverAddr.String) :=
  handshakeSYNACK_responds listeningServer clientSyn clientSynTcp (.ok 54) serverAddr.String
    (by rfl) (by rfl)

/-- The indicator of a parsed packet carries the packet's transport layer. -/
theorem ParsePacket_transport (packet : Packet) (ind : PacketIndicator)
    (h : ParsePacket packet = .ok ind) : packet.transport = some ind.transportLayer := by
  unfold ParsePacket at h
  split_ifs at h
  split at h
  · split at h
    · rename_i ht; simp only [Result.ok.injEq] at h; subst h; exact ht
    · rename_i ht; simp only [Result.ok.injEq] at h; subst h; exact ht
    · simp at h
  · simp at h

/-- A successful `handshakeACK` and its whole effect. -/
theorem handshakeACK_ok_inv (c : Conn) (packet : Packet) (conn : RawConn)
    (wr : Except GoError Nat) (h : (c.handshakeACK packet conn wr).result = .ok ()) :
    ∃ ind tcp client0 ls,
      ParsePacket packet = .ok ind ∧ ind.transportLayer = .tcp tcp ∧
      c.clients ind.Src.String = some client0 ∧
      CreateLayers ind.DstPort ind.SrcPort client0.seq ((tcp.Seq + 1) % 2 ^ 32) conn ind.SrcIP
        c.id 128 ind.SrcHardwareAddr = .ok ls ∧
      (c.handshakeACK packet conn wr).wire =
        [⟨ls.link, ls.network, FlagTCPLayer ls.transport false false true, []⟩] ∧
      (c.handshakeACK packet conn wr).conn.clients =
        (c.setClient ind.Src.String { client0 with ack := (tcp.Seq + 1) % 2 ^ 32 }).clients := by
  unfold Conn.handshakeACK at h ⊢
  cases hp : ParsePacket packet with
  | panic m => simp [hp] at h
  | error e => simp [hp] at h
  | ok ind =>
    simp only [hp] at h ⊢
    cases ht : ind.transportLayer with
    | udp u => simp [PacketIndicator.TransportLayerType, ht, TransportLayer.LayerType] at h
    | other nm => simp [PacketIndicator.TransportLayerType, ht, TransportLayer.LayerType] at h
    | tcp tcp =>
      simp only [PacketIndicator.TransportLayerType, ht, TransportLayer.LayerType,
        PacketIndicator.TCPLayer, ne_eq, not_true_eq_false, if_false] at h ⊢
      cases hcl : c.clients ind.Src.String with
      | none => simp [hcl] at h
      | some client0 =>
        simp only [hcl] at h ⊢
        cases hls : CreateLayers ind.DstPort ind.SrcPort client0.seq ((tcp.Seq + 1) % 2 ^ 32) conn
            ind.SrcIP c.id 128 ind.SrcHardwareAddr with
        | panic m => rw [hls] at h; simp at h
        | error e => rw [hls] at h; simp at h
        | ok ls =>
          cases wr with
          | error e => rw [hls] at h; simp [Serialize] at h
          | ok k =>
            refine ⟨ind, tcp, client0, ls, rfl, ht, hcl, hls, ?_, ?_⟩
            · simp only [Serialize]
            · simp only [Serialize]
              split_ifs <;> rfl

/-- A successful `handshake` went through every step: the handle was opened,
the SYN was sent, a TCP reply with SYN set and RST clear was received, and the
ACK was sent. -/
theorem handshake_ok_inv (c : Conn) (srcDev dstDev : Device) (created : Option GoError)
    (wrSyn : Except GoError Nat) (reply : Reply) (wrAck : Except GoError Nat)
    (h : (c.handshake srcDev dstDev created wrSyn reply wrAck).result = .ok ()) :
    ∃ packet tcp,
      reply = .packet packet ∧ packet.transport = some (.tcp tcp) ∧
      tcp.SYN = true ∧ tcp.RST = false ∧
      (c.handshakeSYN ⟨srcDev, dstDev⟩ wrSyn).result = .ok () ∧
      ((c.handshakeSYN ⟨srcDev, dstDev⟩ wrSyn).conn.handshakeACK packet ⟨srcDev, dstDev⟩
        wrAck).result = .ok () ∧
      (c.handshake srcDev dstDev created wrSyn reply wrAck).wire =
        (c.handshakeSYN ⟨srcDev, dstDev⟩ wrSyn).wire ++
          ((c.handshakeSYN ⟨srcDev, dstDev⟩ wrSyn).conn.handshakeACK packet ⟨srcDev, dstDev⟩
            wrAck).wire ∧
      (c.handshake srcDev dstDev created wrSyn reply wrAck).conn =
        ((c.handshakeSYN ⟨srcDev, dstDev⟩ wrSyn).conn.handshakeACK packet ⟨srcDev, dstDev⟩
          wrAck).conn := by
  unfold Conn.handshake at h ⊢
  cases created with
  | some e => simp at h
  | none =>
    dsimp only at h ⊢
    cases hs : (c.handshakeSYN ⟨srcDev, dstDev⟩ wrSyn).result with
    | panic m => simp [hs] at h
    | error e => simp [hs] at h
    | ok u =>
      simp only [hs] at h
      cases reply with
      | timer => simp at h
      | readError e => simp at h
      | packet packet =>
        dsimp only at h
        cases htr : packet.transport with
        | none => simp [htr] at h
        | some t =>
          cases t with
          | udp u => simp [htr] at h
          | other nm => simp [htr] at h
          | tcp tcp =>
            simp only [htr] at h
            cases hrst : tcp.RST with
            | true => simp [hrst] at h
            | false =>
              cases hsyn : tcp.SYN with
              | false => simp [hrst, hsyn] at h
              | true =>
                cases ha : ((c.handshakeSYN ⟨srcDev, dstDev⟩ wrSyn).conn.handshakeACK packet
                    ⟨srcDev, dstDev⟩ wrAck).result with
                | panic m => simp [hrst, hsyn, ha] at h
                | error e => simp [hrst, hsyn, ha] at h
                | ok u2 =>
                  refine ⟨packet, tcp, rfl, htr, hsyn, hrst, rfl, ha, ?_, ?_⟩ <;>
                    simp [hs, htr, hrst, hsyn, ha]

/-- C8: for a freshly created connection (empty peer table) with remote
endpoint `R` and a reply that is TCP with sequence number `S`: when the
handshake succeeds, which takes both injections, the reply had SYN set and RST
clear, exactly two frames were injected in order, a SYN with `seq = 0` and
`ack = 0` and then an ACK with `seq = 1` and `ack = (S + 1) mod 2^32`, and on
return the peer table entry for `R` has `seq = 1` and `ack = (S + 1) mod 2^32`. -/
theorem handshake_success (c : Conn) (srcDev dstDev : Device) (created : Option GoError)
    (wrSyn : Except GoError Nat) (packet : Packet) (wrAck : Except GoError Nat)
    (R : TCPAddr) (tcp : TCP)
    (hfresh : ∀ k, c.clients k = none)
    (hR : c.dstAddr = some R)
    (hreply : packet.transport = some (.tcp tcp))
    (hok : (c.handshake srcDev dstDev created wrSyn (.packet packet) wrAck).result = .ok ()) :
    tcp.SYN = true ∧ tcp.RST = false ∧
    (∃ syn ack,
      (c.handshake srcDev dstDev created wrSyn (.packet packet) wrAck).wire = [syn, ack] ∧
      syn.transport.SYN = true ∧ syn.transport.ACK = false ∧
      syn.transport.Seq = 0 ∧ syn.transport.Ack = 0 ∧
      ack.transport.SYN = false ∧ ack.transport.ACK = true ∧
      ack.transport.Seq = 1 ∧ ack.transport.Ack = (tcp.Seq + 1) % 2 ^ 32) ∧
    (∃ peer,
      (c.handshake srcDev dstDev created wrSyn (.packet packet) wrAck).conn.clients R.String
        = some peer ∧
      peer.seq = 1 ∧ peer.ack = (tcp.Seq + 1) % 2 ^ 32) := by
  obtain ⟨packet1, tcp1, hp, htr, hsyn, hrst, hs, ha, hwire, hconn⟩ :=
    handshake_ok_inv c srcDev dstDev created wrSyn _ wrAck hok
  cases hp
  rw [hreply] at htr
  cases htr
  obtain ⟨dstAddr, ls1, hd, hls1, hw1, hc1, -⟩ := handshakeSYN_ok_inv c _ wrSyn hs
  rw [hR] at hd
  cases hd
  obtain ⟨ind, tcp2, client0, ls2, hpp, hti, hcl, hls2, hw2, hc2⟩ :=
    handshakeACK_ok_inv _ packet _ wrAck ha
  have htr2 := ParsePacket_transport packet ind hpp
  rw [hreply, hti] at htr2
  cases htr2
  rw [hc1, setClient_clients] at hcl
  have hkey : ind.Src.String = R.String := by
    by_contra hne
    rw [if_neg hne, hfresh] at hcl
    cases hcl
  rw [if_pos hkey] at hcl
  cases hcl
  obtain ⟨h1, -, -⟩ := CreateLayers_ok _ _ _ _ _ _ _ _ _ _ hls1
  obtain ⟨h2, -, -⟩ := CreateLayers_ok _ _ _ _ _ _ _ _ _ _ hls2
  refine ⟨hsyn, hrst,
    ⟨⟨ls1.link, ls1.network, FlagTCPLayer ls1.transport true false false, []⟩,
      ⟨ls2.link, ls2.network, FlagTCPLayer ls2.transport false false true, []⟩, ?_, ?_⟩,
    ⟨{ crypt := c.crypt, seq := 1, ack := (tcp.Seq + 1) % 2 ^ 32 }, ?_, rfl, rfl⟩⟩
  · rw [hwire, hw1, hw2]; rfl
  · simp [FlagTCPLayer, h1, h2]
  · rw [hconn, hc2, setClient_clients, if_pos hkey.symm]

/-- C8 at the scenario of the description: the client dials `10.0.0.2:443` and
the server answers with sequence number 100. -/
theorem handshake_success_witness :
    (serverTcp true false 100).SYN = true ∧ (serverTcp true false 100).RST = false ∧
    (∃ syn ack,
      (freshClient.handshake clientDev gatewayDev none (.ok 54)
        (.packet (serverFrame true false 100 none)) (.ok 54)).wire = [syn, ack] ∧
      syn.transport.SYN = true ∧ syn.transport.ACK = false ∧
      syn.transport.Seq = 0 ∧ syn.transport.Ack = 0 ∧
      ack.transport.SYN = false ∧ ack.transport.ACK = true ∧
      ack.transport.Seq = 1 ∧ ack.transport.Ack = (100 + 1) % 2 ^ 32) ∧
    (∃ peer,
      (freshClient.handshake clientDev gatewayDev none (.ok 54)
        (.packet (serverFrame true false 100 none)) (.ok 54)).conn.clients serverAddr.String
        = some peer ∧
      peer.seq = 1 ∧ peer.ack = (100 + 1) % 2 ^ 32) :=
  handshake_success freshClient clientDev gatewayDev none (.ok 54)
    (serverFrame true false 100 none) (.ok 54) serverAddr (serverTcp true false 100)
    (fun _ => rfl) (by rfl) (by rfl) (by rfl)

/-- C9: after the handshake handle was opened and the SYN was sent, leaving
the connection `syn.conn` and the wire `syn.wire`: if the timer's message is
received first the handshake fails with `timeout`; if the reply is TCP with
RST set, whatever its SYN flag, it fails with `connection reset`; if the reply
is TCP with RST and SYN clear it fails with `invalid packet`; in each of these
cases nothing is injected after the SYN and the connection is left as the SYN
step left it, with the peer's `ack` still 0 and the SYN frame, which has ACK
clear, alone on the wire. When the connection or the wire differ from what the
SYN step left, the reply was TCP with SYN set and RST clear. -/
theorem handshake_reply_classification (c : Conn) (srcDev dstDev : Device)
    (wrSyn : Except GoError Nat) (reply : Reply) (wrAck : Except GoError Nat)
    (packet : Packet) (tcp : TCP)
    (hsyn : (c.handshakeSYN ⟨srcDev, dstDev⟩ wrSyn).result = .ok ()) :
    (reply = .timer →
      (c.handshake srcDev dstDev none wrSyn reply wrAck).result = .error (.new "timeout") ∧
      (c.handshake srcDev dstDev none wrSyn reply wrAck).wire =
        (c.handshakeSYN ⟨srcDev, dstDev⟩ wrSyn).wire ∧
      (c.handshake srcDev dstDev none wrSyn reply wrAck).conn =
        (c.handshakeSYN ⟨srcDev, dstDev⟩ wrSyn).conn) ∧
    (reply = .packet packet → packet.transport = some (.tcp tcp) → tcp.RST = true →
      (c.handshake srcDev dstDev none wrSyn reply wrAck).result =
        .error (.new "connection reset") ∧
      (c.handshake srcDev dstDev none wrSyn reply wrAck).wire =
        (c.handshakeSYN ⟨srcDev, dstDev⟩ wrSyn).wire ∧
      (c.handshake srcDev dstDev none wrSyn reply wrAck).conn =
        (c.handshakeSYN ⟨srcDev, dstDev⟩ wrSyn).conn) ∧
    (reply = .packet packet → packet.transport = some (.tcp tcp) →
      tcp.RST = false → tcp.SYN = false →
      (c.handshake srcDev dstDev none wrSyn reply wrAck).result =
        .error (.new "invalid packet") ∧
      (c.handshake srcDev dstDev none wrSyn reply wrAck).wire =
        (c.handshakeSYN ⟨srcDev, dstDev⟩ wrSyn).wire ∧
      (c.handshake srcDev dstDev none wrSyn reply wrAck).conn =
        (c.handshakeSYN ⟨srcDev, dstDev⟩ wrSyn).conn) ∧
    (∃ f peer,
      (c.handshakeSYN ⟨srcDev, dstDev⟩ wrSyn).wire = [f] ∧
      f.transport.SYN = true ∧ f.transport.ACK = false ∧
      (c.handshakeSYN ⟨srcDev, dstDev⟩ wrSyn).conn.clients c.RemoteAddrString = some peer ∧
      peer.seq = 1 ∧ peer.ack = 0) ∧
    ((c.handshake srcDev dstDev none wrSyn reply wrAck).wire ≠
        (c.handshakeSYN ⟨srcDev, dstDev⟩ wrSyn).wire ∨
      (c.handshake srcDev dstDev none wrSyn reply wrAck).conn ≠
        (c.handshakeSYN ⟨srcDev, dstDev⟩ wrSyn).conn →
      ∃ packet1 tcp1, reply = .packet packet1 ∧ packet1.transport = some (.tcp tcp1) ∧
        tcp1.SYN = true ∧ tcp1.RST = false) := by
  refine ⟨?_, ?_, ?_, ?_, ?_⟩
  · rintro rfl
    simp [Conn.handshake, hsyn]
  · rintro rfl htr hrst
    simp [Conn.handshake, hsyn, htr, hrst]
  · rintro rfl htr hrst hs
    simp [Conn.handshake, hsyn, htr, hrst, hs]
  · obtain ⟨dstAddr, ls, hd, hls, hw, hc, -⟩ := handshakeSYN_ok_inv c _ wrSyn hsyn
    obtain ⟨h1, -, -⟩ := CreateLayers_ok _ _ _ _ _ _ _ _ _ _ hls
    refine ⟨_, { crypt := c.crypt, seq := 1, ack := 0 }, hw, ?_, ?_, ?_, rfl, rfl⟩
    · simp [FlagTCPLayer]
    · simp [FlagTCPLayer]
    · rw [hc]; simp [setClient_clients, Conn.RemoteAddrString, hd]
  · intro hne
    by_contra hcon
    apply hne.elim <;> intro hne1 <;> apply hne1
    all_goals
      unfold Conn.handshake
      simp only [hsyn]
      cases reply with
      | timer => rfl
      | readError e => rfl
      | packet packet1 =>
        dsimp only
        cases htr : packet1.transport with
        | none => rfl
        | some t =>
          cases t with
          | udp u => rfl
          | other nm => rfl
          | tcp tcp1 =>
            dsimp only
            cases hrst : tcp1.RST with
            | true => simp
            | false =>
              cases hs : tcp1.SYN with
              | false => simp
              | true => exact absurd ⟨packet1, tcp1, rfl, htr, hs, hrst⟩ hcon

/-- C9 at the scenario of the description: the server answers the client's SYN
with a reset. -/
theorem handshake_reply_classification_witness :
    (Reply.packet (serverFrame false true 100 none) = .timer →
      (freshClient.handshake clientDev gatewayDev none (.ok 54)
        (.packet (serverFrame false true 100 none)) (.ok 54)).result =
          .error (.new "timeout") ∧
      (freshClient.handshake clientDev gatewayDev none (.ok 54)
        (.packet (serverFrame false true 100 none)) (.ok 54)).wire =
        (freshClient.handshakeSYN ⟨clientDev, gatewayDev⟩ (.ok 54)).wire ∧
      (freshClient.handshake clientDev gatewayDev none (.ok 54)
        (.packet (serverFrame false true 100 none)) (.ok 54)).conn =
        (freshClient.handshakeSYN ⟨clientDev, gatewayDev⟩ (.ok 54)).conn) ∧
    (Reply.packet (serverFrame false true 100 none) = .packet (serverFrame false true 100 none) →
      (serverFrame false true 100 none).transport = some (.tcp (serverTcp false true 100)) →
      (serverTcp false true 100).RST = true →
      (freshClient.handshake clientDev gatewayDev none (.ok 54)
        (.packet (serverFrame false true 100 none)) (.ok 54)).result =
        .error (.new "connection reset") ∧
      (freshClient.handshake clientDev gatewayDev none (.ok 54)
        (.packet (serverFrame false true 100 none)) (.ok 54)).wire =
        (freshClient.handshakeSYN ⟨clientDev, gatewayDev⟩ (.ok 54)).wire ∧
      (freshClient.handshake clientDev gatewayDev none (.ok 54)
        (.packet (serverFrame false true 100 none)) (.ok 54)).conn =
        (freshClient.handshakeSYN ⟨clientDev, gatewayDev⟩ (.ok 54)).conn) ∧
    (Reply.packet (serverFrame false true 100 none) = .packet (serverFrame false true 100 none) →
      (serverFrame false true 100 none).transport = some (.tcp (serverTcp false true 100)) →
      (serverTcp false true 100).RST = false → (serverTcp false true 100).SYN = false →
      (freshClient.handshake clientDev gatewayDev none (.ok 54)
        (.packet (serverFrame false true 100 none)) (.ok 54)).result =
        .error (.new "invalid packet") ∧
      (freshClient.handshake clientDev gatewayDev none (.ok 54)
        (.packet (serverFrame false true 100 none)) (.ok 54)).wire =
        (freshClient.handshakeSYN ⟨clientDev, gatewayDev⟩ (.ok 54)).wire ∧
      (freshClient.handshake clientDev gatewayDev none (.ok 54)
        (.packet (serverFrame false true 100 none)) (.ok 54)).conn =
        (freshClient.handshakeSYN ⟨clientDev, gatewayDev⟩ (.ok 54)).conn) ∧
    (∃ f peer,
      (freshClient.handshakeSYN ⟨clientDev, gatewayDev⟩ (.ok 54)).wire = [f] ∧
      f.transport.SYN = true ∧ f.transport.ACK = false ∧
      (freshClient.handshakeSYN ⟨clientDev, gatewayDev⟩ (.ok 54)).conn.clients
        freshClient.RemoteAddrString = some peer ∧
      peer.seq = 1 ∧ peer.ack = 0) ∧
    ((freshClient.handshake clientDev gatewayDev none (.ok 54)
        (.packet (serverFrame false true 100 none)) (.ok 54)).wire ≠
        (freshClient.handshakeSYN ⟨clientDev, gatewayDev⟩ (.ok 54)).wire ∨
      (freshClient.handshake clientDev gatewayDev none (.ok 54)
        (.packet (serverFrame false true 100 none)) (.ok 54)).conn ≠
        (freshClient.handshakeSYN ⟨clientDev, gatewayDev⟩ (.ok 54)).conn →
      ∃ packet1 tcp1, Reply.packet (serverFrame false true 100 none) = .packet packet1 ∧
        packet1.transport = some (.tcp tcp1) ∧ tcp1.SYN = true ∧ tcp1.RST = false) :=
  handshake_reply_classification freshClient clientDev gatewayDev (.ok 54)
    (.packet (serverFrame false true 100 none)) (.ok 54) (serverFrame false true 100 none)
    (serverTcp false true 100) (by rfl)

/-! ## Calls that inject nothing -/

/-- The function `handshakeSYN` injects nothing unless it succeeds. -/
theorem handshakeSYN_wire (c : Conn) (conn : RawConn) (wr : Except GoError Nat) :
    ((c.handshakeSYN conn wr).wire = [] ∧ (c.handshakeSYN conn wr).conn = c) ∨
      (c.handshakeSYN conn wr).result = .ok () := by
  unfold Conn.handshakeSYN
  simp only [Serialize]
  repeat' split
  all_goals simp

/-- The function `handshakeSYNACK` injects nothing unless it succeeds. -/
theorem handshakeSYNACK_wire (c : Conn) (ind : PacketIndicator) (wr : Except GoError Nat) :
    ((c.handshakeSYNACK ind wr).wire = [] ∧ (c.handshakeSYNACK ind wr).conn = c) ∨
      (c.handshakeSYNACK ind wr).result = .ok () := by
  unfold Conn.handshakeSYNACK
  simp only [Serialize]
  repeat' split
  all_goals simp

/-- The function `handshakeACK` injects nothing unless it succeeds. -/
theorem handshakeACK_wire (c : Conn) (packet : Packet) (conn : RawConn)
    (wr : Except GoError Nat) :
    (c.handshakeACK packet conn wr).wire = [] ∨ (c.handshakeACK packet conn wr).result = .ok () := by
  unfold Conn.handshakeACK
  simp only [Serialize]
  repeat' split
  all_goals simp

/-- The writing task injects nothing unless it succeeds, and then leaves the
connection as it was. -/
theorem writeTask_wire (c : Conn) (p : Bytes) (key : GoString) (dstIP : IP) (dstPort : Nat)
    (wr : Except GoError Nat) :
    ((c.writeTask p key dstIP dstPort wr).wire = [] ∧ (c.writeTask p key dstIP dstPort wr).conn = c) ∨
      (c.writeTask p key dstIP dstPort wr).result = .ok () := by
  unfold Conn.writeTask
  simp only [Serialize]
  repeat' split
  all_goals simp

/-- The race of `WriteTo` injects what its writing task injected, or nothing. -/
theorem writeRace_wire (c : Conn) (p : Bytes) (addr : Addr) (dstIP : IP) (dstPort : Nat)
    (wr : Except GoError Nat) (sched : Sched) :
    ((c.writeRace p addr dstIP dstPort wr sched).wire = [] ∧
      (c.writeRace p addr dstIP dstPort wr sched).conn = c) ∨
    ((c.writeRace p addr dstIP dstPort wr sched).wire =
        (c.writeTask p addr.String dstIP dstPort wr).wire ∧
      (c.writeRace p addr dstIP dstPort wr sched).conn =
        (c.writeTask p addr.String dstIP dstPort wr).conn) := by
  unfold Conn.writeRace
  dsimp only
  repeat' split
  all_goals simp

/-! ## The timer of `WriteTo` -/

/-- What the timer of `WriteTo` sleeps, for every connection and instant: none
is started when the write deadline is zero; otherwise it sleeps the read
deadline minus the instant when that is positive, and nothing when it is not. -/
theorem writeTimer_eq (c : Conn) (now : Time) :
    c.writeTimer now =
      if c.writeDeadline = 0 then none else some (max 0 (Time.Sub c.readDeadline now)).toNat := by
  unfold Conn.writeTimer
  by_cases h : c.writeDeadline = 0
  · simp [h]
  · simp only [ne_eq, h, not_false_eq_true, if_true, if_false, Option.some.injEq]
    rcases le_total 0 (Time.Sub c.readDeadline now) with h1 | h1
    · rw [max_eq_right h1]
    · rw [max_eq_left h1]
      simp [Int.toNat_eq_zero.mpr h1]

/-- With a zero write deadline `WriteTo` starts no timer. -/
theorem writeTimer_zero (c : Conn) (now : Time) (h : c.writeDeadline = 0) :
    c.writeTimer now = none := by
  simp [Conn.writeTimer, h]

/-- With both deadlines set to the same instant, as `SetDeadline` does, the
timer of `WriteTo` sleeps up to the write deadline. -/
theorem writeTimer_SetDeadline (c : Conn) (t now : Time) (ht : t ≠ 0) :
    (c.SetDeadline t).writeTimer now = some (Time.Sub t now).toNat := by
  simp [Conn.writeTimer, Conn.SetDeadline, Conn.SetReadDeadline, Conn.SetWriteDeadline, ht]

/-- C11: the timer `WriteTo` starts does not wait on the write deadline. The
dialed client of the scenario, whose read deadline was never set, is given a
write deadline five seconds after `startInstant`. A `WriteTo` at `startInstant`
starts a timer, the write deadline being set, and the timer sleeps
`c.readDeadline.Sub(time.Now())` when that is positive: it sleeps nothing, where
the description has it wait the five seconds up to the write deadline. With the
read deadline seven seconds ahead and the same write deadline the timer sleeps
seven seconds, not five: the wait follows the read deadline. -/
theorem writeTimer_sleeps_on_read_deadline :
    (dialedClient.SetWriteDeadline (startInstant + 5000000000)).writeTimer startInstant
      = some 0 ∧
    (dialedClient.SetWriteDeadline (startInstant + 5000000000)).describedWriteTimer startInstant
      = some 5000000000 ∧
    ((dialedClient.SetWriteDeadline (startInstant + 5000000000)).SetReadDeadline
      (startInstant + 7000000000)).writeTimer startInstant = some 7000000000 ∧
    ((dialedClient.SetWriteDeadline (startInstant + 5000000000)).SetReadDeadline
      (startInstant + 7000000000)).describedWriteTimer startInstant = some 5000000000 := by
  refine ⟨?_, ?_, ?_, ?_⟩
  · decide
  · decide
  · decide
  · decide

/-! ## The peer table -/

/-- Storing under a key the table holds keeps the keys of the table. -/
theorem setClient_keys (c : Conn) (key k : GoString) (cl : clientIndicator)
    (h : (c.clients key).isSome = true) :
    ((c.setClient key cl).clients k).isSome = (c.clients k).isSome := by
  rw [setClient_clients]
  by_cases hk : k = key
  · simp [hk, h]
  · simp [hk]

/-- The function `handshakeACK` stores under a key the table already holds: the keys
stay. -/
theorem handshakeACK_keys (c : Conn) (packet : Packet) (conn : RawConn)
    (wr : Except GoError Nat) (k : GoString) :
    ((c.handshakeACK packet conn wr).conn.clients k).isSome = (c.clients k).isSome := by
  unfold Conn.handshakeACK
  simp only [Serialize]
  repeat' split
  all_goals first
    | rfl
    | (simp only [incId_clients]; exact setClient_keys _ _ _ _ (by simp [*]))

/-- The writing task stores under the key it looked up: the keys stay. -/
theorem writeTask_keys (c : Conn) (p : Bytes) (key : GoString) (dstIP : IP) (dstPort : Nat)
    (wr : Except GoError Nat) (k : GoString) :
    ((c.writeTask p key dstIP dstPort wr).conn.clients k).isSome = (c.clients k).isSome := by
  rcases writeTask_wire c p key dstIP dstPort wr with ⟨-, h⟩ | h
  · rw [h]
  · obtain ⟨client, rc, ls, crypt, contents, hcl, -, -, -, -, heq⟩ :=
      writeTask_ok_inv c p key dstIP dstPort wr h
    rw [heq]
    dsimp only
    by_cases hk : k = key
    · split_ifs <;> simp [Conn.incId, Conn.setClient, hk, hcl]
    · split_ifs <;> simp [Conn.incId, Conn.setClient, hk]

/-- The function `WriteTo` keeps the keys of the peer table. -/
theorem WriteTo_keys (c : Conn) (p : Bytes) (addr : Addr) (wr : Except GoError Nat)
    (sched : Sched) (k : GoString) :
    ((c.WriteTo p addr wr sched).conn.clients k).isSome = (c.clients k).isSome := by
  cases addr with
  | tcp a =>
    show ((c.writeRace p (.tcp a) a.IP (toUint16 a.Port) wr sched).conn.clients k).isSome = _
    rcases writeRace_wire c p (.tcp a) a.IP (toUint16 a.Port) wr sched with ⟨-, h⟩ | ⟨-, h⟩
    · rw [h]
    · rw [h]; exact writeTask_keys c p _ _ _ wr k
  | udp a =>
    show ((c.writeRace p (.udp a) a.IP (toUint16 a.Port) wr sched).conn.clients k).isSome = _
    rcases writeRace_wire c p (.udp a) a.IP (toUint16 a.Port) wr sched with ⟨-, h⟩ | ⟨-, h⟩
    · rw [h]
    · rw [h]; exact writeTask_keys c p _ _ _ wr k
  | other str => rfl

/-- The function `ReadFrom` stores under the key it looked up: the keys stay. -/
theorem ReadFrom_keys (c : Conn) (p : Bytes) (rd : Except GoError Packet) (timerFirst : Bool)
    (k : GoString) :
    ((c.ReadFrom p rd timerFirst).conn.clients k).isSome = (c.clients k).isSome := by
  unfold Conn.ReadFrom
  repeat' split
  all_goals first
    | rfl
    | exact setClient_keys _ _ _ _ (by simp [*])

/-- The function `Close` leaves the peer table as it is. -/
theorem Close_clients (c : Conn) (closeErr : Option GoError) :
    (c.Close closeErr).conn.clients = c.clients := by
  unfold Conn.Close
  dsimp only
  repeat' split
  all_goals rfl

/-- The function `handshakeSYN` adds the remote address to the keys of the table exactly when
it injected its SYN. -/
theorem handshakeSYN_keys (c : Conn) (conn : RawConn) (wr : Except GoError Nat)
    (k : GoString) :
    ((c.handshakeSYN conn wr).conn.clients k).isSome = true ↔
      (c.clients k).isSome = true ∨
        ((c.handshakeSYN conn wr).wire ≠ [] ∧ c.RemoteAddrString = k) := by
  rcases handshakeSYN_wire c conn wr with ⟨hw, hc⟩ | h
  · rw [hc, hw]; simp
  · obtain ⟨dstAddr, ls, hd, -, hw, hc, -⟩ := handshakeSYN_ok_inv c conn wr h
    rw [hc, hw, setClient_clients]
    have hr : c.RemoteAddrString = dstAddr.String := by simp [Conn.RemoteAddrString, hd]
    rw [hr]
    by_cases hk : k = dstAddr.String
    · simp [hk]
    · simp [hk, Ne.symm hk]

/-- The function `handshakeSYNACK` adds the source of the captured SYN to the keys of the
table exactly when it injected its SYN/ACK. -/
theorem handshakeSYNACK_keys (c : Conn) (ind : PacketIndicator) (wr : Except GoError Nat)
    (k : GoString) :
    ((c.handshakeSYNACK ind wr).conn.clients k).isSome = true ↔
      (c.clients k).isSome = true ∨
        ((c.handshakeSYNACK ind wr).wire ≠ [] ∧ ind.Src.String = k) := by
  rcases handshakeSYNACK_wire c ind wr with ⟨hw, hc⟩ | h
  · rw [hc, hw]; simp
  · obtain ⟨tcp, rc, ls, -, -, -, hw, hc⟩ := handshakeSYNACK_ok_inv c ind wr h
    rw [hc, hw, setClient_clients]
    by_cases hk : k = ind.Src.String
    · simp [hk]
    · simp [hk, Ne.symm hk]

/-- After its SYN step, `handshake` keeps the keys of the table. -/
theorem handshake_keys (c : Conn) (srcDev dstDev : Device) (wrSyn : Except GoError Nat)
    (reply : Reply) (wrAck : Except GoError Nat) (k : GoString) :
    ((c.handshake srcDev dstDev none wrSyn reply wrAck).conn.clients k).isSome =
      ((c.handshakeSYN ⟨srcDev, dstDev⟩ wrSyn).conn.clients k).isSome := by
  unfold Conn.handshake
  dsimp only
  repeat' split
  all_goals first
    | rfl
    | exact handshakeACK_keys _ _ _ _ k

/-- One call adds to the keys of the peer table the peer it opened, and removes none. -/
theorem step_keys (c : Conn) (op : Op) (k : GoString) :
    ((c.step op).clients k).isSome = true ↔
      (c.clients k).isSome = true ∨ c.opened op = some k := by
  cases op with
  | handshake srcDev dstDev created wrSyn reply wrAck =>
    cases created with
    | some e => simp [Conn.step, Conn.opened, Conn.handshake]
    | none =>
      simp only [Conn.step, Conn.opened]
      rw [handshake_keys, handshakeSYN_keys]
      by_cases hw : (c.handshakeSYN ⟨srcDev, dstDev⟩ wrSyn).wire = []
      · simp [hw]
      · simp [hw]
  | handshakeSYNACK ind wr =>
    simp only [Conn.step, Conn.opened]
    rw [handshakeSYNACK_keys]
    by_cases hw : (c.handshakeSYNACK ind wr).wire = []
    · simp [hw]
    · simp [hw]
  | WriteTo p addr wr sched => simp [Conn.step, Conn.opened, WriteTo_keys]
  | ReadFrom p rd timerFirst => simp [Conn.step, Conn.opened, ReadFrom_keys]
  | Close closeErr => simp [Conn.step, Conn.opened, Close_clients]

/-- After a sequence of calls the keys of the peer table are those it had and the peers
the calls opened. -/
theorem run_keys (ops : List Op) (c : Conn) (k : GoString) :
    ((c.run ops).clients k).isSome = true ↔
      (c.clients k).isSome = true ∨ k ∈ c.openedBy ops := by
  induction ops generalizing c with
  | nil => simp [Conn.run, Conn.openedBy]
  | cons op ops ih =>
    simp only [Conn.run, Conn.openedBy, List.mem_append]
    rw [ih, step_keys]
    cases c.opened op with
    | none => simp
    | some k1 => simp [or_assoc, @eq_comm _ k k1]

/-- A call that completed the handshake of a peer opened that peer. -/
theorem completed_opened (c : Conn) (op : Op) (k : GoString) (h : c.completed op = some k) :
    c.opened op = some k := by
  cases op with
  | handshake srcDev dstDev created wrSyn reply wrAck =>
    simp only [Conn.completed] at h
    split_ifs at h with hok
    obtain ⟨packet, tcp, -, -, -, -, hs, -, -, -⟩ :=
      handshake_ok_inv c srcDev dstDev created wrSyn reply wrAck hok
    obtain ⟨dstAddr, ls, -, -, hw, -, -⟩ := handshakeSYN_ok_inv c _ wrSyn hs
    cases created with
    | some e => simp [Conn.handshake] at hok
    | none => simp [Conn.opened, hw, h]
  | handshakeSYNACK ind wr =>
    simp only [Conn.completed] at h
    split_ifs at h with hok
    obtain ⟨tcp, rc, ls, -, -, -, hw, -⟩ := handshakeSYNACK_ok_inv c ind wr hok
    simp [Conn.opened, hw, h]
  | WriteTo p addr wr sched => simp [Conn.completed] at h
  | ReadFrom p rd timerFirst => simp [Conn.completed] at h
  | Close closeErr => simp [Conn.completed] at h

/-- The peers whose handshake a sequence of calls completed are among those it opened. -/
theorem completedBy_openedBy (ops : List Op) (c : Conn) (k : GoString)
    (h : k ∈ c.completedBy ops) : k ∈ c.openedBy ops := by
  induction ops generalizing c with
  | nil => simp [Conn.completedBy] at h
  | cons op ops ih =>
    simp only [Conn.completedBy, Conn.openedBy, List.mem_append] at h ⊢
    rcases h with h | h
    · left
      cases hc : c.completed op with
      | none => simp [hc] at h
      | some k1 =>
        simp only [hc, Option.toList_some, List.mem_singleton] at h
        subst h
        simp [completed_opened c op k hc]
    · right; exact ih _ h

/-- C12 as stated fails on both counts. A dial of the client of the scenario
in which no reply arrives fails with `timeout`: no handshake has completed, and
the peer table holds the server's address. The server of the scenario answers
the client's SYN and is then closed: the endpoint is closed, and the peer table
holds the client's address. -/
theorem peer_table_counterexample :
    freshClient.completedBy timedOutDial = [] ∧
    (freshClient.run timedOutDial).isClosed = false ∧
    ((freshClient.run timedOutDial).clients serverAddr.String).isSome = true ∧
    listeningServer.completedBy answerThenClose = [clientAddr.String] ∧
    (listeningServer.run answerThenClose).isClosed = true ∧
    ((listeningServer.run answerThenClose).clients clientAddr.String).isSome = true := by
  refine ⟨?_, ?_, ?_, ?_, ?_, ?_⟩
  · rfl
  · rfl
  · rfl
  · rfl
  · rfl
  · rfl

/-- C12, amended: in every state reached from a connection with an empty peer
table, as `New()` makes it whatever `srcPort`, `dstAddr`, `crypt` and handle are
then assigned, by a sequence of the operations `handshake` (`handshakeSYN`,
`handshakeACK`), `handshakeSYNACK`, `WriteTo`, `ReadFrom` and `Close`, the peer
table contains key `K` iff one of the calls opened `K`, that is injected the SYN
for `K` (`handshake`) or the SYN/ACK for `K` (`handshakeSYNACK`): the peer state
is created at that injection, whether or not the handshake then completes and
whether or not the endpoint is closed. In particular the table contains every
`K` whose handshake completed, and `Close` leaves the table as it is. -/
theorem peer_table_keys (c : Conn) (ops : List Op) (K : GoString) (closeErr : Option GoError)
    (hfresh : ∀ k, c.clients k = none) :
    (((c.run ops).clients K).isSome = true ↔ K ∈ c.openedBy ops) ∧
    (K ∈ c.completedBy ops → ((c.run ops).clients K).isSome = true) ∧
    ((c.run ops).Close closeErr).conn.clients = (c.run ops).clients := by
  have h1 : ((c.run ops).clients K).isSome = true ↔ K ∈ c.openedBy ops := by
    rw [run_keys, hfresh]; simp
  exact ⟨h1, fun h => h1.mpr (completedBy_openedBy ops c K h), Close_clients _ _⟩

/-- C12, amended, at the scenario of the description: the server answers the
client's SYN and is then closed. -/
theorem peer_table_keys_witness :
    (((listeningServer.run answerThenClose).clients clientAddr.String).isSome = true ↔
      clientAddr.String ∈ listeningServer.openedBy answerThenClose) ∧
    (clientAddr.String ∈ listeningServer.completedBy answerThenClose →
      ((listeningServer.run answerThenClose).clients clientAddr.String).isSome = true) ∧
    ((listeningServer.run answerThenClose).Close none).conn.clients =
      (listeningServer.run answerThenClose).clients :=
  peer_table_keys listeningServer answerThenClose clientAddr.String none (fun _ => rfl)

/-! ## The source port of the frames injected -/

/-- The frame `handshakeSYN` injects leaves from `c.srcPort`. -/
theorem handshakeSYN_srcPort (c : Conn) (conn : RawConn) (wr : Except GoError Nat) (f : Frame)
    (hf : f ∈ (c.handshakeSYN conn wr).wire) : f.transport.SrcPort = c.srcPort := by
  rcases handshakeSYN_wire c conn wr with ⟨h, -⟩ | h
  · rw [h] at hf; cases hf
  · obtain ⟨dstAddr, ls, -, hls, hw, -, -⟩ := handshakeSYN_ok_inv c conn wr h
    obtain ⟨h1, -, -⟩ := CreateLayers_ok _ _ _ _ _ _ _ _ _ _ hls
    rw [hw, List.mem_singleton] at hf
    rw [hf]
    simp [FlagTCPLayer, h1]

/-- The frame `handshakeSYNACK` injects leaves from the port the captured SYN
was addressed to. -/
theorem handshakeSYNACK_srcPort (c : Conn) (ind : PacketIndicator) (wr : Except GoError Nat)
    (f : Frame) (hf : f ∈ (c.handshakeSYNACK ind wr).wire) :
    f.transport.SrcPort = ind.DstPort := by
  rcases handshakeSYNACK_wire c ind wr with ⟨h, -⟩ | h
  · rw [h] at hf; cases hf
  · obtain ⟨tcp, rc, ls, -, -, hls, hw, -⟩ := handshakeSYNACK_ok_inv c ind wr h
    obtain ⟨h1, -, -⟩ := CreateLayers_ok _ _ _ _ _ _ _ _ _ _ hls
    rw [hw, List.mem_singleton] at hf
    rw [hf]
    simp [FlagTCPLayer, h1]

/-- The frame `handshakeACK` injects leaves from the port the captured reply
was addressed to. -/
theorem handshakeACK_srcPort (c : Conn) (packet : Packet) (conn : RawConn)
    (wr : Except GoError Nat) (f : Frame) (hf : f ∈ (c.handshakeACK packet conn wr).wire) :
    ∃ ind, ParsePacket packet = .ok ind ∧ f.transport.SrcPort = ind.DstPort := by
  rcases handshakeACK_wire c packet conn wr with h | h
  · rw [h] at hf; cases hf
  · obtain ⟨ind, tcp, client0, ls, hp, -, -, hls, hw, -⟩ := handshakeACK_ok_inv c packet conn wr h
    obtain ⟨h1, -, -⟩ := CreateLayers_ok _ _ _ _ _ _ _ _ _ _ hls
    rw [hw, List.mem_singleton] at hf
    refine ⟨ind, hp, ?_⟩
    rw [hf]
    simp [FlagTCPLayer, h1]

/-- The frame the writing task injects leaves from `c.srcPort`. -/
theorem writeTask_srcPort (c : Conn) (p : Bytes) (key : GoString) (dstIP : IP) (dstPort : Nat)
    (wr : Except GoError Nat) (f : Frame) (hf : f ∈ (c.writeTask p key dstIP dstPort wr).wire) :
    f.transport.SrcPort = c.srcPort := by
  rcases writeTask_wire c p key dstIP dstPort wr with ⟨h, -⟩ | h
  · rw [h] at hf; cases hf
  · obtain ⟨client, rc, ls, crypt, contents, -, -, hls, -, -, heq⟩ :=
      writeTask_ok_inv c p key dstIP dstPort wr h
    obtain ⟨h1, -, -⟩ := CreateLayers_ok _ _ _ _ _ _ _ _ _ _ hls
    rw [heq] at hf
    simp only [List.mem_singleton] at hf
    rw [hf]
    simp [h1]

/-- The frame `WriteTo` injects leaves from `c.srcPort`. -/
theorem WriteTo_srcPort (c : Conn) (p : Bytes) (addr : Addr) (wr : Except GoError Nat)
    (sched : Sched) (f : Frame) (hf : f ∈ (c.WriteTo p addr wr sched).wire) :
    f.transport.SrcPort = c.srcPort := by
  cases addr with
  | tcp a =>
    rcases writeRace_wire c p (.tcp a) a.IP (toUint16 a.Port) wr sched with ⟨h, -⟩ | ⟨h, -⟩
    · have hf1 : f ∈ (c.writeRace p (.tcp a) a.IP (toUint16 a.Port) wr sched).wire := hf
      rw [h] at hf1; cases hf1
    · have hf1 : f ∈ (c.writeRace p (.tcp a) a.IP (toUint16 a.Port) wr sched).wire := hf
      rw [h] at hf1
      exact writeTask_srcPort c p _ _ _ wr f hf1
  | udp a =>
    rcases writeRace_wire c p (.udp a) a.IP (toUint16 a.Port) wr sched with ⟨h, -⟩ | ⟨h, -⟩
    · have hf1 : f ∈ (c.writeRace p (.udp a) a.IP (toUint16 a.Port) wr sched).wire := hf
      rw [h] at hf1; cases hf1
    · have hf1 : f ∈ (c.writeRace p (.udp a) a.IP (toUint16 a.Port) wr sched).wire := hf
      rw [h] at hf1
      exact writeTask_srcPort c p _ _ _ wr f hf1
  | other str => cases hf

/-- C13: for every connection and every input the code can hand the call (any
destination address and payload; for the handshake responders a captured frame,
which the filter of its handle lets through only when it is a TCP frame
addressed to `c.srcPort`), every frame injected by `handshakeSYN`,
`handshakeSYNACK`, `handshakeACK` and `WriteTo` has the TCP source port
`c.srcPort`. -/
theorem emitted_source_port (c : Conn) (e : Emission) (f : Frame)
    (hcap : e.captured c.srcPort = true)
    (hf : f ∈ (c.emit e).wire) :
    f.transport.SrcPort = c.srcPort := by
  cases e with
  | handshakeSYN conn wr => exact handshakeSYN_srcPort c conn wr f hf
  | handshakeSYNACK ind wr =>
    rw [handshakeSYNACK_srcPort c ind wr f hf]
    cases ht : ind.transportLayer with
    | tcp t => simpa [Emission.captured, passesFilter, PacketIndicator.DstPort, ht] using hcap
    | udp u => simp [Emission.captured, passesFilter, ht] at hcap
    | other nm => simp [Emission.captured, passesFilter, ht] at hcap
  | handshakeACK packet conn wr =>
    obtain ⟨ind, hp, h⟩ := handshakeACK_srcPort c packet conn wr f hf
    have htr := ParsePacket_transport packet ind hp
    rw [h]
    cases ht : ind.transportLayer with
    | tcp t => simpa [Emission.captured, passesFilter, PacketIndicator.DstPort, htr, ht] using hcap
    | udp u => simp [Emission.captured, passesFilter, htr, ht] at hcap
    | other nm => simp [Emission.captured, passesFilter, htr, ht] at hcap
  | WriteTo p addr wr sched => exact WriteTo_srcPort c p addr wr sched f hf

/-- C13 at the scenario of the description: the SYN/ACK with which the server
answers the client's SYN leaves from port `443`, the server's `srcPort`, and the
ACK with which the client answers the server's SYN/ACK leaves from port `5000`,
the client's. -/
theorem emitted_source_port_witness :
    (serverSynAck ∈ (listeningServer.emit (.handshakeSYNACK clientSyn (.ok 54))).wire ∧
      serverSynAck.transport.SrcPort = listeningServer.srcPort) ∧
    (clientAck ∈
        ((freshClient.handshakeSYN ⟨clientDev, gatewayDev⟩ (.ok 54)).conn.emit
          (.handshakeACK (serverFrame true false 100 none) ⟨clientDev, gatewayDev⟩ (.ok 54))).wire ∧
      clientAck.transport.SrcPort =
        (freshClient.handshakeSYN ⟨clientDev, gatewayDev⟩ (.ok 54)).conn.srcPort) :=
  ⟨⟨by decide,
      emitted_source_port listeningServer (.handshakeSYNACK clientSyn (.ok 54)) serverSynAck
        (by decide) (by decide)⟩,
    ⟨by decide,
      emitted_source_port (freshClient.handshakeSYN ⟨clientDev, gatewayDev⟩ (.ok 54)).conn
        (.handshakeACK (serverFrame true false 100 none) ⟨clientDev, gatewayDev⟩ (.ok 54))
        clientAck (by decide) (by decide)⟩⟩

/-! ## The address model: `ParseIPPort` -/

/-- The function `Index` finds nothing when the separator's first character is absent. -/
theorem Index_none_of_not_mem (c : Char) (sep s : GoString) (h : c ∉ s) :
    Index s (c :: sep) = none := by
  induction s with
  | nil => simp [Index]
  | cons a t ih =>
    have hne : a ≠ c := fun e => h (by simp [e])
    have ht : c ∉ t := fun e => h (by simp [e])
    simp [Index, List.isPrefixOf, ih ht, Ne.symm hne]

/-- The function `Index` finds the first instance of a separator whose first character does
not occur before it. -/
theorem Index_append_sep (c : Char) (sep h q : GoString) (hh : c ∉ h) :
    Index (h ++ c :: (sep ++ q)) (c :: sep) = some h.length := by
  induction h with
  | nil =>
    have : sep.isPrefixOf (sep ++ q) = true :=
      List.isPrefixOf_iff_prefix.mpr (List.prefix_append sep q)
    simp [Index, List.isPrefixOf, this]
  | cons a t ih =>
    have hne : a ≠ c := fun e => hh (by simp [e])
    have ht : c ∉ t := fun e => hh (by simp [e])
    simp [Index, List.isPrefixOf, ih ht, Ne.symm hne]

/-- What is left after the separator. -/
theorem drop_sep (c : Char) (sep h q : GoString) :
    (h ++ c :: (sep ++ q)).drop (h.length + (c :: sep).length) = q := by
  rw [show h ++ c :: (sep ++ q) = (h ++ c :: sep) ++ q by simp,
    show h.length + (c :: sep).length = (h ++ c :: sep).length by simp, List.drop_left]

/-- The function `Count` of a separator that occurs once. -/
theorem Count_one (c : Char) (sep h q : GoString) (hh : c ∉ h) (hq : c ∉ q) :
    Count (h ++ c :: (sep ++ q)) (c :: sep) = 1 := by
  unfold Count
  simp only [List.cons_ne_nil, if_false]
  have hlen : (h ++ c :: (sep ++ q)).length = (h.length + sep.length + q.length) + 1 := by
    simp; omega
  rw [hlen]
  simp only [countLoop, Index_append_sep c sep h q hh, drop_sep]
  cases h.length + sep.length + q.length with
  | zero => simp [countLoop]
  | succ n => simp [countLoop, Index_none_of_not_mem c sep q hq]

/-- The function `Split` at a separator that occurs once gives the two sides. -/
theorem Split_one (c : Char) (sep h q : GoString) (hh : c ∉ h) (hq : c ∉ q) :
    Split (h ++ c :: (sep ++ q)) (c :: sep) = [h, q] := by
  unfold Split
  simp only [List.cons_ne_nil, if_false, Count_one c sep h q hh hq]
  simp only [splitLoop, Index_append_sep c sep h q hh, drop_sep, List.take_left]

/-- The function `ParseIPPort` on a string without a leading bracket and with one colon:
the two sides of the colon go to `ParseIP` and to `ParseUint`. -/
theorem ParseIPPort_colon_form (h q : GoString) (hb : (h ++ ':' :: q).head? ≠ some '[')
    (hh : ':' ∉ h) (hq : ':' ∉ q) :
    ParseIPPort (h ++ ':' :: q) =
      if ParseIP h = [] then .error (parseIPPortError "invalid ipv4 ip" h)
      else
        match ParseUint q with
        | .error _ => .error (parseIPPortError "invalid port" q)
        | .ok port => .ok { IP := ParseIP h, Port := port % 2 ^ 16 } := by
  have hsplit : Split (h ++ ':' :: q) [':'] = [h, q] := by
    simpa using Split_one ':' [] h q hh hq
  cases h with
  | nil =>
    simp only [List.nil_append] at hsplit ⊢
    simp [ParseIPPort, hsplit]
  | cons a t =>
    have ha : a ≠ '[' := by
      intro e; apply hb; simp [e]
    simp only [List.cons_append] at hsplit ⊢
    simp only [ParseIPPort, ha, if_false, hsplit]

/-- The digit loop of `ParseUint` from an accumulator that fits 16 bits:
digits are accumulated in base 10, and the loop fails on the first character
that is not a digit or on the first value above 65535. -/
theorem parseUintLoop_spec (q : GoString) (n : Nat) (hn : n ≤ 65535) :
    (q.all isDec = true ∧ q.foldl (fun n c => n * 10 + (c.toNat - 48)) n ≤ 65535 →
      parseUintLoop q n = .ok (q.foldl (fun n c => n * 10 + (c.toNat - 48)) n)) ∧
    (¬ (q.all isDec = true ∧ q.foldl (fun n c => n * 10 + (c.toNat - 48)) n ≤ 65535) →
      ∃ e, parseUintLoop q n = .error e) := by
  have mono : ∀ (l : GoString) (a : Nat),
      a ≤ l.foldl (fun n c => n * 10 + (c.toNat - 48)) a := by
    intro l
    induction l with
    | nil => intro a; exact le_refl _
    | cons c t ih =>
      intro a
      simp only [List.foldl_cons]
      exact le_trans (by omega) (ih _)
  induction q generalizing n with
  | nil => simp [parseUintLoop, hn]
  | cons c t ih =>
    simp only [List.all_cons, Bool.and_eq_true, List.foldl_cons, parseUintLoop]
    by_cases hc : isDec c = true
    · have hd : c.toNat - 48 ≤ 9 := by
        simp only [isDec, decide_eq_true_eq] at hc; omega
      have h1 : ¬ n ≥ (2 ^ 64 - 1) / 10 + 1 := by norm_num; omega
      have h2 : (n * 10) % 2 ^ 64 = n * 10 := Nat.mod_eq_of_lt (by norm_num; omega)
      have h3 : (n * 10 + (c.toNat - 48)) % 2 ^ 64 = n * 10 + (c.toNat - 48) :=
        Nat.mod_eq_of_lt (by norm_num; omega)
      simp only [hc, if_true, h1, if_false, h2, h3, true_and]
      by_cases h4 : n * 10 + (c.toNat - 48) ≤ 65535
      · have h5 : ¬ (n * 10 + (c.toNat - 48) < n * 10 ∨ n * 10 + (c.toNat - 48) > 2 ^ 16 - 1) := by
          norm_num; omega
        simp only [h5, if_false]
        exact ih _ h4
      · have h5 : (n * 10 + (c.toNat - 48) < n * 10 ∨ n * 10 + (c.toNat - 48) > 2 ^ 16 - 1) := by
          right; norm_num; omega
        simp only [h5, if_true]
        refine ⟨fun hh => ?_, fun _ => ⟨_, rfl⟩⟩
        have := mono t (n * 10 + (c.toNat - 48))
        omega
    · simp [hc]

/-- The function `strconv.ParseUint(q, 10, 16)` accepts exactly the base-10 unsigned
integers in 0..65535, and returns their value. -/
theorem ParseUint_spec (q : GoString) :
    (isUint16Literal q = true → ParseUint q = .ok (decimalValue q)) ∧
    (isUint16Literal q = false → ∃ e, ParseUint q = .error e) := by
  unfold ParseUint isUint16Literal decimalValue
  cases q with
  | nil => simp
  | cons c t =>
    obtain ⟨h1, h2⟩ := parseUintLoop_spec (c :: t) 0 (by norm_num)
    simp only [List.length_cons, Nat.succ_ne_zero, if_false, List.isEmpty_cons, Bool.not_false,
      Bool.true_and, Bool.and_eq_true, decide_eq_true_eq, Bool.and_eq_false_iff,
      decide_eq_false_iff_not]
    refine ⟨fun h => h1 h, fun h => h2 ?_⟩
    rintro ⟨ha, hb⟩
    rcases h with h | h
    · rw [ha] at h; cases h
    · exact h hb

/-- C5: for a string `s = h ++ ":" ++ q` that does not start with `[` and
contains exactly one `:`: `ParseIPPort(s)` succeeds iff `h` is a valid IP
literal and `q` is a base-10 unsigned integer in 0..65535; on success it
returns the IP of `h` and the value of `q` as port; when `h` does not parse it
fails with the bad-IP error; and when `h` parses but `q` is not such an
integer it fails with the bad-port error. -/
theorem ParseIPPort_unbracketed (s h q : GoString)
    (hs : s = h ++ ':' :: q) (hb : s.head? ≠ some '[') (hone : s.count ':' = 1) :
    ((∃ p, ParseIPPort s = .ok p) ↔ (isIPLiteral h = true ∧ isUint16Literal q = true)) ∧
    (isIPLiteral h = true → isUint16Literal q = true →
      ParseIPPort s = .ok { IP := ParseIP h, Port := decimalValue q }) ∧
    (isIPLiteral h = false →
      ParseIPPort s = .error (parseIPPortError "invalid ipv4 ip" h)) ∧
    (isIPLiteral h = true → isUint16Literal q = false →
      ParseIPPort s = .error (parseIPPortError "invalid port" q)) := by
  subst hs
  have hcnt : List.count ':' h = 0 ∧ List.count ':' q = 0 := by
    simp only [List.count_append, List.count_cons_self] at hone
    omega
  have hh : ':' ∉ h := List.count_eq_zero.mp hcnt.1
  have hq : ':' ∉ q := List.count_eq_zero.mp hcnt.2
  have hform := ParseIPPort_colon_form h q hb hh hq
  have hlit : ∀ x : GoString, isIPLiteral x = true ↔ ParseIP x ≠ [] := by
    intro x; unfold isIPLiteral; cases ParseIP x <;> simp
  obtain ⟨hu1, hu2⟩ := ParseUint_spec q
  have hB : isIPLiteral h = true → isUint16Literal q = true →
      ParseIPPort (h ++ ':' :: q) = .ok { IP := ParseIP h, Port := decimalValue q } := by
    intro h1 h2
    have hle : decimalValue q ≤ 65535 := by
      simp only [isUint16Literal, Bool.and_eq_true, decide_eq_true_eq] at h2
      exact h2.2
    rw [hform, if_neg ((hlit h).mp h1), hu1 h2]
    simp only [IPPort.mk.injEq, Result.ok.injEq, true_and]
    exact Nat.mod_eq_of_lt (by norm_num; omega)
  have hC : isIPLiteral h = false →
      ParseIPPort (h ++ ':' :: q) = .error (parseIPPortError "invalid ipv4 ip" h) := by
    intro h1
    have : ParseIP h = [] := by
      by_contra hne
      rw [(hlit h).mpr hne] at h1; cases h1
    rw [hform, if_pos this]
  have hD : isIPLiteral h = true → isUint16Literal q = false →
      ParseIPPort (h ++ ':' :: q) = .error (parseIPPortError "invalid port" q) := by
    intro h1 h2
    obtain ⟨e, he⟩ := hu2 h2
    rw [hform, if_neg ((hlit h).mp h1), he]
  refine ⟨⟨?_, fun ⟨h1, h2⟩ => ⟨_, hB h1 h2⟩⟩, hB, hC, hD⟩
  rintro ⟨p, hp⟩
  cases h1 : isIPLiteral h with
  | false => rw [hC h1] at hp; cases hp
  | true =>
    cases h2 : isUint16Literal q with
    | false => rw [hD h1 h2] at hp; cases hp
    | true => exact ⟨rfl, rfl⟩

/-- C5 at `10.0.0.2:443`, which parses to the address `10.0.0.2` in its 16-byte
form and the port 443. -/
theorem ParseIPPort_unbracketed_witness :
    ((∃ p, ParseIPPort "10.0.0.2:443".toList = .ok p) ↔
      (isIPLiteral "10.0.0.2".toList = true ∧ isUint16Literal "443".toList = true)) ∧
    (isIPLiteral "10.0.0.2".toList = true → isUint16Literal "443".toList = true →
      ParseIPPort "10.0.0.2:443".toList =
        .ok { IP := ParseIP "10.0.0.2".toList, Port := decimalValue "443".toList }) ∧
    (isIPLiteral "10.0.0.2".toList = false →
      ParseIPPort "10.0.0.2:443".toList =
        .error (parseIPPortError "invalid ipv4 ip" "10.0.0.2".toList)) ∧
    (isIPLiteral "10.0.0.2".toList = true → isUint16Literal "443".toList = false →
      ParseIPPort "10.0.0.2:443".toList =
        .error (parseIPPortError "invalid port" "443".toList)) :=
  ParseIPPort_unbracketed "10.0.0.2:443".toList "10.0.0.2".toList "443".toList
    (by decide) (by decide) (by decide)

/-- The ports the description names as bad are not base-10 unsigned integers
in 0..65535, and are refused after an address that parses. -/
theorem ParseIPPort_bad_ports :
    isUint16Literal "65536".toList = false ∧ isUint16Literal "-1".toList = false ∧
    isUint16Literal "".toList = false ∧ isUint16Literal "abc".toList = false ∧
    ParseIPPort "10.0.0.2:65536".toList =
      .error (parseIPPortError "invalid port" "65536".toList) ∧
    ParseIPPort "10.0.0.2:-1".toList = .error (parseIPPortError "invalid port" "-1".toList) ∧
    ParseIPPort "10.0.0.2:".toList = .error (parseIPPortError "invalid port" "".toList) ∧
    ParseIPPort "10.0.0.2:abc".toList =
      .error (parseIPPortError "invalid port" "abc".toList) := by
  decide

/-- A one-character separator that occurs in `s` is found by `Index` at its
first instance. -/
theorem Index_of_mem (c : Char) (s : GoString) (h : c ∈ s) :
    ∃ a b, s = a ++ c :: b ∧ c ∉ a ∧ Index s [c] = some a.length := by
  obtain ⟨a, b, hab, ha⟩ := List.eq_append_cons_of_mem h
  exact ⟨a, b, hab, ha, by rw [hab]; simpa using Index_append_sep c [] a b ha⟩

/-- The loop of `Count` counts the instances of a one-character separator. -/
theorem countLoop_eq_count (c : Char) (fuel : Nat) (s : GoString) (h : s.length ≤ fuel) :
    countLoop fuel s [c] = s.count c := by
  induction fuel generalizing s with
  | zero =>
    have : s = [] := List.length_eq_zero.mp (Nat.le_zero.mp h)
    subst this; rfl
  | succ n ih =>
    by_cases hc : c ∈ s
    · obtain ⟨a, b, hab, ha, hi⟩ := Index_of_mem c s hc
      simp only [countLoop, hi, List.length_singleton]
      subst hab
      rw [show a.length + 1 = (a ++ [c]).length by simp,
        show a ++ c :: b = (a ++ [c]) ++ b by simp, List.drop_left]
      rw [ih b (by simp at h; omega)]
      simp [List.count_append, List.count_eq_zero.mpr ha]
      omega
    · simp [countLoop, Index_none_of_not_mem c [] s hc, List.count_eq_zero.mpr hc]

/-- The loop of `Split` cuts once per instance it is asked to cut at. -/
theorem splitLoop_length (c : Char) (n : Nat) (s : GoString) (h : n ≤ s.count c) :
    (splitLoop n s [c]).length = n + 1 := by
  induction n generalizing s with
  | zero => rfl
  | succ n ih =>
    have hc : c ∈ s := List.count_pos_iff.mp (by omega)
    obtain ⟨a, b, hab, ha, hi⟩ := Index_of_mem c s hc
    simp only [splitLoop, hi, List.length_cons, List.length_nil, Nat.zero_add]
    subst hab
    rw [show a.length + 1 = (a ++ [c]).length by simp,
      show a ++ c :: b = (a ++ [c]) ++ b by simp, List.drop_left]
    rw [ih b]
    simp [List.count_append, List.count_eq_zero.mpr ha] at h
    omega

/-- The function `Split` at a one-character separator gives one part more than there are
instances of the separator. -/
theorem Split_length (c : Char) (s : GoString) : (Split s [c]).length = s.count c + 1 := by
  unfold Split Count
  simp only [List.cons_ne_nil, if_false]
  rw [countLoop_eq_count c _ s (le_refl _)]
  exact splitLoop_length c _ s (le_refl _)

/-- The part of C6 the code meets: on a non-empty string `ParseIPPort` never
panics, and a wrong bracket/colon structure is the malformed-address error. -/
theorem ParseIPPort_malformed (s : GoString) (hne : s ≠ []) :
    (∀ m, ParseIPPort s ≠ .panic m) ∧
    (s.head? = some '[' → (Split s.tail [']', ':']).length ≠ 2 →
      ParseIPPort s = .error (parseIPPortError "invalid ipv6 address" s)) ∧
    (s.head? ≠ some '[' → s.count ':' ≠ 1 →
      ParseIPPort s = .error (parseIPPortError "invalid ipv4 address" s)) := by
  cases s with
  | nil => exact absurd rfl hne
  | cons a t =>
    refine ⟨?_, ?_, ?_⟩
    · intro m
      unfold ParseIPPort
      dsimp only
      split_ifs <;> split <;> (try split_ifs) <;> (try split) <;> simp
    · intro ha hl
      have ha1 : a = '[' := by simpa using ha
      subst ha1
      simp only [List.tail_cons] at hl
      unfold ParseIPPort
      simp only [if_true]
      split
      · rename_i h q heq
        rw [heq] at hl; simp at hl
      · rfl
    · intro ha hl
      have ha1 : a ≠ '[' := by intro e; apply ha; simp [e]
      have hlen := Split_length ':' (a :: t)
      unfold ParseIPPort
      simp only [ha1, if_false]
      split
      · rename_i h q heq
        rw [heq] at hlen; simp at hlen; omega
      · rfl

/-- C6, where the code fails it: `ParseIPPort` reads `s[0]` before any length
check, so on the empty string it panics with an index out of range instead of
returning the malformed-address error. -/
theorem ParseIPPort_empty_panics :
    ParseIPPort [] = .panic "runtime error: index out of range [0] with length 0" := rfl

/-! ## Formatting and parsing numbers -/

end Ikago
